import Mathlib

/-!
Shallow embedding of the ephemeral chat server (src/server.js).

The server keeps four pieces of global state: the room map `rooms`
(code → room), the used-code set `usedCodes`, and the two session
ledgers `userSessions` / `usernameSessions` (sets of keys of the form
"id-code" and "name-code"; the JS maps them to `true`, so we model them
as sets).  Each connected socket additionally carries a `roomCode` tag
and its socket.io room memberships (`socket.join` / `socket.leave`).

Nondeterminism is made explicit: every `Math.random()` draw becomes a
parameter (a sample below 10000 for room codes, an arbitrary natural
for generated user names and message ids), and every `Date.now()` read
becomes a `now : Nat` parameter.  Handlers return the next state plus
the list of emitted events, each tagged with the receiving socket id.
A handler that would throw an uncaught exception (there is one:
`message.trim()` on a missing field) returns `none`.
-/

/-- A participant record, as pushed onto `room.users` in `server.js`. -/
structure ChatUser where
  socketId : String
  username : String
  joinedAt : Nat
  deriving DecidableEq

/-- A chat message, as pushed onto `room.messages`.  The JS id is
`Date.now() + Math.random()`; we model it as `now + idRnd`. -/
structure ChatMessage where
  id : Nat
  username : String
  message : String
  timestamp : Nat
  socketId : String
  deriving DecidableEq

/-- A room, as stored in the `rooms` map.  `inVoiceChat` starts out
absent in JS (falsy); we model it as `false`. -/
structure Room where
  users : List ChatUser
  messages : List ChatMessage
  createdAt : Nat
  expiresAt : Nat
  lastActivity : Nat
  inVoiceChat : Bool
  deriving DecidableEq

/-- Per-socket state: the `socket.roomCode` tag and the socket.io
rooms the socket has joined. -/
structure SockState where
  roomCode : Option String
  joined : List String
  deriving DecidableEq

/-- A freshly connected socket: no room tag, no memberships. -/
def SockState.fresh : SockState := { roomCode := none, joined := [] }

/-- The whole server state. -/
structure ServerState where
  rooms : List (String × Room)
  usedCodes : List String
  userSessions : List String
  usernameSessions : List String
  socks : List (String × SockState)
  deriving DecidableEq

/-- The events the server emits, tagged payloads included. -/
inductive Ev where
  | errorEv (message : String)
  | roomFull
  | joinedRoom (code : String) (username : String) (userCount : Nat) (messages : List ChatMessage)
  | userJoined (username : String) (userCount : Nat)
  | newMessage (m : ChatMessage)
  | userTyping (username : String) (isTyping : Bool)
  | userLeft (username : String) (userCount : Nat)
  | leftRoom
  | roomExpired
  | voiceChatOffer (payload : String)
  | voiceChatAnswer (payload : String)
  | iceCandidate (payload : String)
  | voiceChatStarted
  | voiceChatEnded
  deriving DecidableEq

/-- Result of a handler: next state and the emitted (target, event) list. -/
structure Res where
  st : ServerState
  out : List (String × Ev)
  deriving DecidableEq

/-- ROOM_EXPIRY_TIME = 10 minutes in milliseconds. -/
def ROOM_EXPIRY_TIME : Nat := 10 * 60 * 1000

/-- JS `x || d` on an optional string: `undefined` and `""` are falsy. -/
def jsOr (u : Option String) (d : String) : String :=
  match u with
  | none => d
  | some s => if s == "" then d else s

/-- The character for a decimal digit `d < 10`. -/
def decChar (d : Nat) : Char := Char.ofNat (48 + d)

/-- Decimal digit characters of `n`, big-endian, accumulated into `acc`;
fuel-driven so it reduces definitionally (mirrors `Number.toString`). -/
def decAux : Nat → Nat → List Char → List Char
  | 0, _, acc => acc
  | fuel + 1, n, acc =>
    if n < 10 then decChar (n % 10) :: acc
    else decAux fuel (n / 10) (decChar (n % 10) :: acc)

/-- Decimal representation of `n`, as JS `n.toString()` produces. -/
def decimalRepr (n : Nat) : String := String.mk (decAux (n + 1) n [])

/-- `n.toString().padStart(4, '0')`. -/
def pad4 (n : Nat) : String :=
  let s := decimalRepr n
  if s.length < 4 then String.mk (List.replicate (4 - s.length) '0') ++ s else s

/-- The regex test `/^\d{4}$/.test(code)`: exactly four characters,
each a decimal digit. -/
def isFourDigitCode (s : String) : Bool :=
  s.data.length == 4 && s.data.all Char.isDigit

/-- `rooms.get(code)` (first entry with the key; JS map keys are unique). -/
def findRoom (st : ServerState) (code : String) : Option Room :=
  (st.rooms.find? (fun e => e.1 == code)).map (fun e => e.2)

/-- `rooms.has(code)`. -/
def hasRoom (st : ServerState) (code : String) : Bool :=
  st.rooms.any (fun e => e.1 == code)

/-- `rooms.set(code, r)`: replace the entry if present, else append. -/
def setRoom (st : ServerState) (code : String) (r : Room) : ServerState :=
  if st.rooms.any (fun e => e.1 == code) then
    { st with rooms := st.rooms.map (fun e => if e.1 == code then (code, r) else e) }
  else
    { st with rooms := st.rooms ++ [(code, r)] }

/-- `rooms.delete(code)`. -/
def delRoom (st : ServerState) (code : String) : ServerState :=
  { st with rooms := st.rooms.filter (fun e => !(e.1 == code)) }

/-- `usedCodes.add(code)` (a JS Set never duplicates). -/
def addUsedCode (st : ServerState) (code : String) : ServerState :=
  if st.usedCodes.contains code then st
  else { st with usedCodes := st.usedCodes ++ [code] }

/-- `usedCodes.delete(code)`. -/
def delUsedCode (st : ServerState) (code : String) : ServerState :=
  { st with usedCodes := st.usedCodes.filter (fun c => !(c == code)) }

/-- `ledger.set(key, true)` on a session ledger, kept as a key set. -/
def addKey (l : List String) (k : String) : List String :=
  if l.contains k then l else l ++ [k]

/-- The state of socket `sid` (a fresh socket if not yet recorded). -/
def getSock (st : ServerState) (sid : String) : SockState :=
  (((st.socks.find? (fun e => e.1 == sid)).map (fun e => e.2))).getD SockState.fresh

/-- Record the state of socket `sid`. -/
def setSock (st : ServerState) (sid : String) (s : SockState) : ServerState :=
  if st.socks.any (fun e => e.1 == sid) then
    { st with socks := st.socks.map (fun e => if e.1 == sid then (sid, s) else e) }
  else
    { st with socks := st.socks ++ [(sid, s)] }

/-- `io.to(code).emit(ev)`: deliver to every socket that joined the
socket.io room `code`, the sender included. -/
def ioTo (st : ServerState) (code : String) (ev : Ev) : List (String × Ev) :=
  (st.socks.filter (fun e => e.2.joined.contains code)).map (fun e => (e.1, ev))

/-- `socket.to(code).emit(ev)`: deliver to every member of the socket.io
room `code` except the sender. -/
def sockTo (st : ServerState) (sid : String) (code : String) (ev : Ev) : List (String × Ev) :=
  (st.socks.filter (fun e => !(e.1 == sid) && e.2.joined.contains code)).map (fun e => (e.1, ev))

/-- `socket.join(code)`: socket.io membership is a set. -/
def joinSockRoom (ss : SockState) (code : String) : SockState :=
  { ss with joined := if ss.joined.contains code then ss.joined else ss.joined ++ [code] }

/-- One pass of the do-while loop in `generateUniqueRoomCode`:
draws samples, counts attempts, stops when the code is unused or the
attempt bound is reached; returns `(code, attempts, rest)` or `none`
when the (finite) sample stream runs out. -/
def genLoop : List Nat → Nat → List String → Option (String × Nat × List Nat)
  | [], _, _ => none
  | s :: rest, attempts, used =>
    let code := pad4 s
    let a := attempts + 1
    if used.contains code && a < 100 then genLoop rest a used
    else some (code, a, rest)

/-- The fallback loop of `generateUniqueRoomCode`: resample while the
code backs an active room (the used-code set is not consulted). -/
def fallbackLoop : List Nat → List (String × Room) → Option (String × List Nat)
  | [], _ => none
  | s :: rest, rooms =>
    let code := pad4 s
    if rooms.any (fun e => e.1 == code) then fallbackLoop rest rooms
    else some (code, rest)

/-- `generateUniqueRoomCode()`: the bounded do-while, the fallback when
100 attempts were used, and the `usedCodes.add(code)` before return. -/
def generateUniqueRoomCode (st : ServerState) (samples : List Nat) :
    Option (String × ServerState × List Nat) :=
  match genLoop samples 0 st.usedCodes with
  | none => none
  | some (code, attempts, rest) =>
    if 100 ≤ attempts then
      match fallbackLoop rest st.rooms with
      | none => none
      | some (fc, rest2) => some (fc, addUsedCode st fc, rest2)
    else
      some (code, addUsedCode st code, rest)

/-- The `error` payloads of `server.js`. -/
def invalidCodeMsg : String := "Invalid code. Please enter exactly 4 digits."

/-- Error when the code names no active room. -/
def roomNotFoundMsg : String := "Room not found. Please check the code or create a new room."

/-- Error when the caller is already a participant. -/
def alreadyInRoomMsg : String := "You are already in this room."

/-- Error when a session ledger entry blocks the join. -/
def rejoinMsg : String :=
  "You cannot rejoin a room you have left. Please create a new room or use a different code."

/-- Error when the caller has no valid room tag. -/
def notInRoomMsg : String := "You are not in a valid room."

/-- Error when the caller's tag outlived its membership. -/
def userNotFoundMsg : String := "User not found in room."

/-- The `joinRoom` handler. -/
def joinRoom (st : ServerState) (sid : String) (code : String) (username : Option String)
    (nameRnd : Nat) (now : Nat) : Res :=
  if !(isFourDigitCode code) then
    { st := st, out := [(sid, Ev.errorEv invalidCodeMsg)] }
  else
    match findRoom st code with
    | none => { st := st, out := [(sid, Ev.errorEv roomNotFoundMsg)] }
    | some room =>
      if 2 ≤ room.users.length then
        { st := st, out := [(sid, Ev.roomFull)] }
      else if room.users.any (fun u => u.socketId == sid) then
        { st := st, out := [(sid, Ev.errorEv alreadyInRoomMsg)] }
      else
        let userKey := sid ++ "-" ++ code
        let nameKey := jsOr username "anonymous" ++ "-" ++ code
        if st.userSessions.contains userKey || st.usernameSessions.contains nameKey then
          { st := st, out := [(sid, Ev.errorEv rejoinMsg)] }
        else
          let user : ChatUser :=
            { socketId := sid
              username := jsOr username ("User" ++ decimalRepr nameRnd)
              joinedAt := now }
          let room' : Room :=
            { room with
              users := room.users ++ [user]
              lastActivity := now
              expiresAt := now + ROOM_EXPIRY_TIME }
          let st1 := setRoom st code room'
          let sock1 := joinSockRoom (getSock st1 sid) code
          let st2 := setSock st1 sid { sock1 with roomCode := some code }
          { st := st2
            out := (sid, Ev.joinedRoom code user.username room'.users.length room'.messages) ::
              sockTo st2 sid code (Ev.userJoined user.username room'.users.length) }

/-- The `createRoom` handler.  `samples` feeds the code allocator;
`none` means the allocator's sample stream ran out. -/
def createRoom (st : ServerState) (sid : String) (username : Option String)
    (samples : List Nat) (nameRnd : Nat) (now : Nat) : Option Res :=
  match generateUniqueRoomCode st samples with
  | none => none
  | some (code, st1, _) =>
    let room0 : Room :=
      { users := []
        messages := []
        createdAt := now
        expiresAt := now + ROOM_EXPIRY_TIME
        lastActivity := now
        inVoiceChat := false }
    let st2 := setRoom st1 code room0
    let user : ChatUser :=
      { socketId := sid
        username := jsOr username ("User" ++ decimalRepr nameRnd)
        joinedAt := now }
    let room1 : Room :=
      { room0 with users := [user], lastActivity := now, expiresAt := now + ROOM_EXPIRY_TIME }
    let st3 := setRoom st2 code room1
    let sock1 := joinSockRoom (getSock st3 sid) code
    let st4 := setSock st3 sid { sock1 with roomCode := some code }
    some { st := st4
           out := [(sid, Ev.joinedRoom code user.username room1.users.length room1.messages)] }

/-- The `sendMessage` handler.  `message = none` models a payload whose
`message` field is absent: the guards still run first, and then
`message.trim()` throws (`none` result = uncaught TypeError). -/
def sendMessage (st : ServerState) (sid : String) (message : Option String)
    (idRnd : Nat) (now : Nat) : Option Res :=
  match (getSock st sid).roomCode with
  | none => some { st := st, out := [(sid, Ev.errorEv notInRoomMsg)] }
  | some rc =>
    match findRoom st rc with
    | none => some { st := st, out := [(sid, Ev.errorEv notInRoomMsg)] }
    | some room =>
      match room.users.find? (fun u => u.socketId == sid) with
      | none => some { st := st, out := [(sid, Ev.errorEv userNotFoundMsg)] }
      | some user =>
        match message with
        | none => none
        | some text =>
          let msg : ChatMessage :=
            { id := now + idRnd
              username := user.username
              message := text.trim
              timestamp := now
              socketId := sid }
          let room' : Room :=
            { room with
              messages := room.messages ++ [msg]
              lastActivity := now
              expiresAt := now + ROOM_EXPIRY_TIME }
          let st1 := setRoom st rc room'
          some { st := st1, out := ioTo st1 rc (Ev.newMessage msg) }

/-- The `typing` handler: relays to the others when the room tag is set;
no state change, and the room's existence is not even checked. -/
def typingH (st : ServerState) (sid : String) (username : String) (isTyping : Bool) : Res :=
  match (getSock st sid).roomCode with
  | none => { st := st, out := [] }
  | some rc => { st := st, out := sockTo st sid rc (Ev.userTyping username isTyping) }

/-- `findIndex` followed by `splice(idx, 1)`: remove the first matching
user and return it together with the remaining list. -/
def spliceFirst (p : ChatUser → Bool) : List ChatUser → Option (ChatUser × List ChatUser)
  | [] => none
  | u :: rest =>
    if p u then some (u, rest)
    else (spliceFirst p rest).map (fun r => (r.1, u :: r.2))

/-- The `disconnect` handler.  At the end the socket itself disappears
(socket.io drops the connection and its room memberships). -/
def disconnectH (st : ServerState) (sid : String) : Res :=
  let res : Res :=
    match (getSock st sid).roomCode with
    | none => { st := st, out := [] }
    | some rc =>
      match findRoom st rc with
      | none => { st := st, out := [] }
      | some room =>
        match spliceFirst (fun u => u.socketId == sid) room.users with
        | none => { st := st, out := [] }
        | some (user, users') =>
          let st1 := setRoom st rc { room with users := users' }
          let st2 := { st1 with
            userSessions := addKey st1.userSessions (sid ++ "-" ++ rc)
            usernameSessions := addKey st1.usernameSessions (user.username ++ "-" ++ rc) }
          let out1 := sockTo st2 sid rc (Ev.userLeft user.username users'.length)
          if users'.length = 0 then
            let st3 := setRoom st2 rc { room with users := users', messages := [] }
            { st := delUsedCode (delRoom st3 rc) rc, out := out1 }
          else
            { st := st2, out := out1 }
  { st := { res.st with socks := res.st.socks.filter (fun e => !(e.1 == sid)) }
    out := res.out }

/-- The `leaveRoom` handler. -/
def leaveRoomH (st : ServerState) (sid : String) : Res :=
  match (getSock st sid).roomCode with
  | none => { st := st, out := [] }
  | some rc =>
    match findRoom st rc with
    | none => { st := st, out := [] }
    | some room =>
      match spliceFirst (fun u => u.socketId == sid) room.users with
      | none => { st := st, out := [] }
      | some (user, users') =>
        let st1 := setRoom st rc { room with users := users' }
        let st2 := setSock st1 sid
          { roomCode := none
            joined := (getSock st1 sid).joined.filter (fun c => !(c == rc)) }
        let st3 := { st2 with
          userSessions := addKey st2.userSessions (sid ++ "-" ++ rc)
          usernameSessions := addKey st2.usernameSessions (user.username ++ "-" ++ rc) }
        let out1 := sockTo st3 sid rc (Ev.userLeft user.username users'.length) ++
          [(sid, Ev.leftRoom)]
        if users'.length = 0 then
          let st4 := setRoom st3 rc { room with users := users', messages := [] }
          { st := delUsedCode (delRoom st4 rc) rc, out := out1 }
        else
          { st := st3, out := out1 }

/-- The `voiceChatOffer` handler: forward the payload to the other
members when the caller's room tag names an active room. -/
def voiceChatOfferH (st : ServerState) (sid : String) (payload : String) : Res :=
  match (getSock st sid).roomCode with
  | none => { st := st, out := [] }
  | some rc =>
    if hasRoom st rc then { st := st, out := sockTo st sid rc (Ev.voiceChatOffer payload) }
    else { st := st, out := [] }

/-- The `voiceChatAnswer` handler. -/
def voiceChatAnswerH (st : ServerState) (sid : String) (payload : String) : Res :=
  match (getSock st sid).roomCode with
  | none => { st := st, out := [] }
  | some rc =>
    if hasRoom st rc then { st := st, out := sockTo st sid rc (Ev.voiceChatAnswer payload) }
    else { st := st, out := [] }

/-- The `iceCandidate` handler. -/
def iceCandidateH (st : ServerState) (sid : String) (payload : String) : Res :=
  match (getSock st sid).roomCode with
  | none => { st := st, out := [] }
  | some rc =>
    if hasRoom st rc then { st := st, out := sockTo st sid rc (Ev.iceCandidate payload) }
    else { st := st, out := [] }

/-- The `startVoiceChat` handler: also sets the room's voice flag. -/
def startVoiceChatH (st : ServerState) (sid : String) : Res :=
  match (getSock st sid).roomCode with
  | none => { st := st, out := [] }
  | some rc =>
    match findRoom st rc with
    | none => { st := st, out := [] }
    | some room =>
      let st1 := setRoom st rc { room with inVoiceChat := true }
      { st := st1, out := sockTo st1 sid rc Ev.voiceChatStarted }

/-- The `endVoiceChat` handler: clears the room's voice flag. -/
def endVoiceChatH (st : ServerState) (sid : String) : Res :=
  match (getSock st sid).roomCode with
  | none => { st := st, out := [] }
  | some rc =>
    match findRoom st rc with
    | none => { st := st, out := [] }
    | some room =>
      let st1 := setRoom st rc { room with inVoiceChat := false }
      { st := st1, out := sockTo st1 sid rc Ev.voiceChatEnded }

/-- One step of the expiry sweep's `for (const [code, room] of rooms)`:
notify the members, then delete the room and release the code. -/
def sweepStep (now : Nat) (acc : Res) (e : String × Room) : Res :=
  if e.2.expiresAt < now then
    { st := delUsedCode (delRoom acc.st e.1) e.1
      out := acc.out ++ ioTo acc.st e.1 Ev.roomExpired }
  else acc

/-- The expiry sweeper's tick (the `setInterval` body): walk the room
entries, evicting every room whose deadline has passed. -/
def sweepH (st : ServerState) (now : Nat) : Res :=
  st.rooms.foldl (sweepStep now) { st := st, out := [] }

/-- The `GET /generateRoomCode` endpoint: allocate (and thereby
reserve) a code without creating a room. -/
def generateRoomCodeEndpoint (st : ServerState) (samples : List Nat) :
    Option (String × ServerState) :=
  (generateUniqueRoomCode st samples).map (fun r => (r.1, r.2.1))

/-- The inbound events, with their explicit randomness and clock. -/
inductive Act where
  | createA (sid : String) (username : Option String) (samples : List Nat) (nameRnd now : Nat)
  | joinA (sid : String) (code : String) (username : Option String) (nameRnd now : Nat)
  | sendA (sid : String) (message : Option String) (idRnd now : Nat)
  | typingA (sid : String) (username : String) (isTyping : Bool)
  | leaveA (sid : String)
  | disconnectA (sid : String)
  | sweepA (now : Nat)
  | offerA (sid : String) (payload : String)
  | answerA (sid : String) (payload : String)
  | iceA (sid : String) (payload : String)
  | startVoiceA (sid : String)
  | endVoiceA (sid : String)
  | genCodeA (samples : List Nat)
  deriving DecidableEq

/-- Apply one action to the state (dropping the emitted events; an
allocator whose sample stream ran out, or a crashed handler, leaves
the state unchanged). -/
def applyAction (st : ServerState) : Act → ServerState
  | Act.createA sid u samples r now => (((createRoom st sid u samples r now)).map Res.st).getD st
  | Act.joinA sid code u r now => (joinRoom st sid code u r now).st
  | Act.sendA sid m r now => (((sendMessage st sid m r now)).map Res.st).getD st
  | Act.typingA sid u b => (typingH st sid u b).st
  | Act.leaveA sid => (leaveRoomH st sid).st
  | Act.disconnectA sid => (disconnectH st sid).st
  | Act.sweepA now => (sweepH st now).st
  | Act.offerA sid p => (voiceChatOfferH st sid p).st
  | Act.answerA sid p => (voiceChatAnswerH st sid p).st
  | Act.iceA sid p => (iceCandidateH st sid p).st
  | Act.startVoiceA sid => (startVoiceChatH st sid).st
  | Act.endVoiceA sid => (endVoiceChatH st sid).st
  | Act.genCodeA samples => (((generateRoomCodeEndpoint st samples)).map (fun r => r.2)).getD st

/-- Run a list of actions from a state. -/
def runActions (st : ServerState) (acts : List Act) : ServerState :=
  acts.foldl applyAction st

/-- The server's state at startup: everything empty. -/
def initState : ServerState :=
  { rooms := [], usedCodes := [], userSessions := [], usernameSessions := [], socks := [] }

/-! ### Facts about decimal codes -/

lemma decChar_isDigit {d : Nat} (h : d < 10) : (decChar d).isDigit = true := by
  interval_cases d <;> decide

lemma decAux_all_digits :
    ∀ fuel n acc, acc.all Char.isDigit = true →
      (decAux fuel n acc).all Char.isDigit = true := by
  intro fuel
  induction fuel with
  | zero => intro n acc h; simpa [decAux] using h
  | succ fuel ih =>
    intro n acc h
    have hd : (decChar (n % 10)).isDigit = true :=
      decChar_isDigit (Nat.mod_lt _ (by norm_num))
    by_cases hn : n < 10
    · simp [decAux, hn, hd, h]
    · simp only [decAux, hn, if_false]
      exact ih _ _ (by simp [hd, h])

lemma decAux_length_le :
    ∀ fuel k n acc, n < 10 ^ (k + 1) →
      (decAux fuel n acc).length ≤ (k + 1) + acc.length := by
  intro fuel
  induction fuel with
  | zero => intro k n acc _; simp only [decAux]; omega
  | succ fuel ih =>
    intro k n acc h
    by_cases hn : n < 10
    · simp only [decAux, hn, if_true, List.length_cons]; omega
    · simp only [decAux, hn, if_false]
      match k with
      | 0 => exact absurd (by simpa using h) hn
      | k + 1 =>
        have h2 : n / 10 < 10 ^ (k + 1) := by
          rw [Nat.div_lt_iff_lt_mul (by norm_num : 0 < 10)]
          calc n < 10 ^ (k + 1 + 1) := h
            _ = 10 ^ (k + 1) * 10 := by ring
        have := ih k (n / 10) (decChar (n % 10) :: acc) h2
        simp only [List.length_cons] at this
        omega

lemma pad4_isFourDigitCode {n : Nat} (h : n < 10000) :
    isFourDigitCode (pad4 n) = true := by
  have h10 : n < 10 ^ (3 + 1) := by
    have hp : (10 : Nat) ^ (3 + 1) = 10000 := by norm_num
    omega
  have hlen : (decAux (n + 1) n []).length ≤ 4 := by
    have := decAux_length_le (n + 1) 3 n [] h10
    simpa using this
  have hdig : (decAux (n + 1) n []).all Char.isDigit = true :=
    decAux_all_digits _ _ _ rfl
  have hzero : (List.replicate (4 - (decAux (n + 1) n []).length) '0').all Char.isDigit = true := by
    rw [List.all_eq_true]
    intro c hcmem
    rw [List.eq_of_mem_replicate hcmem]; decide
  unfold pad4 decimalRepr isFourDigitCode
  simp only [String.length_mk]
  by_cases hc : (decAux (n + 1) n []).length < 4
  · simp only [hc, if_true, String.data_append]
    rw [Bool.and_eq_true]
    refine ⟨?_, ?_⟩
    · simp only [List.length_append, List.length_replicate, beq_iff_eq]
      omega
    · rw [List.all_append, Bool.and_eq_true]
      exact ⟨hzero, hdig⟩
  · simp only [hc, if_false]
    have h4 : (decAux (n + 1) n []).length = 4 := by omega
    simp [h4, hdig]

/-! ### Facts about the code allocator -/

lemma genLoop_shape :
    ∀ samples a0 used c a rest, genLoop samples a0 used = some (c, a, rest) →
      ∃ s ∈ samples, c = pad4 s := by
  intro samples
  induction samples with
  | nil => intro a0 used c a rest h; simp [genLoop] at h
  | cons s ss ih =>
    intro a0 used c a rest h
    simp only [genLoop] at h
    split at h
    · obtain ⟨t, ht, rfl⟩ := ih _ _ _ _ _ h
      exact ⟨t, List.mem_cons_of_mem _ ht, rfl⟩
    · simp only [Option.some.injEq, Prod.mk.injEq] at h
      obtain ⟨rfl, -, -⟩ := h
      exact ⟨s, List.mem_cons_self _ _, rfl⟩

lemma genLoop_rest_sub :
    ∀ samples a0 used c a rest, genLoop samples a0 used = some (c, a, rest) →
      ∀ x ∈ rest, x ∈ samples := by
  intro samples
  induction samples with
  | nil => intro a0 used c a rest h; simp [genLoop] at h
  | cons s ss ih =>
    intro a0 used c a rest h x hx
    simp only [genLoop] at h
    split at h
    · exact List.mem_cons_of_mem _ (ih _ _ _ _ _ h x hx)
    · simp only [Option.some.injEq, Prod.mk.injEq] at h
      obtain ⟨-, -, rfl⟩ := h
      exact List.mem_cons_of_mem _ hx

lemma genLoop_fresh :
    ∀ samples a0 used c a rest, genLoop samples a0 used = some (c, a, rest) →
      a < 100 → used.contains c = false := by
  intro samples
  induction samples with
  | nil => intro a0 used c a rest h; simp [genLoop] at h
  | cons s ss ih =>
    intro a0 used c a rest h ha
    simp only [genLoop] at h
    split at h
    · exact ih _ _ _ _ _ h ha
    · rename_i hcond
      simp only [Option.some.injEq, Prod.mk.injEq] at h
      obtain ⟨rfl, rfl, -⟩ := h
      cases hb : used.contains (pad4 s)
      · rfl
      · exact absurd (by rw [hb]; simpa using ha) hcond

lemma fallbackLoop_shape :
    ∀ samples rooms c rest, fallbackLoop samples rooms = some (c, rest) →
      (∃ s ∈ samples, c = pad4 s) ∧ rooms.any (fun e => e.1 == c) = false := by
  intro samples
  induction samples with
  | nil => intro rooms c rest h; simp [fallbackLoop] at h
  | cons s ss ih =>
    intro rooms c rest h
    simp only [fallbackLoop] at h
    split at h
    · obtain ⟨⟨t, ht, rfl⟩, h2⟩ := ih _ _ _ h
      exact ⟨⟨t, List.mem_cons_of_mem _ ht, rfl⟩, h2⟩
    · rename_i hcond
      simp only [Option.some.injEq, Prod.mk.injEq] at h
      obtain ⟨rfl, -⟩ := h
      exact ⟨⟨s, List.mem_cons_self _ _, rfl⟩, Bool.not_eq_true _ ▸ hcond⟩

lemma gen_state (st : ServerState) (samples : List Nat) (code : String)
    (st' : ServerState) (rest : List Nat)
    (h : generateUniqueRoomCode st samples = some (code, st', rest)) :
    st' = addUsedCode st code := by
  unfold generateUniqueRoomCode at h
  split at h
  · exact absurd h (by simp)
  · split at h
    · split at h
      · exact absurd h (by simp)
      · simp only [Option.some.injEq, Prod.mk.injEq] at h
        obtain ⟨rfl, rfl, -⟩ := h
        rfl
    · simp only [Option.some.injEq, Prod.mk.injEq] at h
      obtain ⟨rfl, rfl, -⟩ := h
      rfl

lemma gen_shape (st : ServerState) (samples : List Nat) (code : String)
    (st' : ServerState) (rest : List Nat)
    (h : generateUniqueRoomCode st samples = some (code, st', rest)) :
    ∃ s ∈ samples, code = pad4 s := by
  unfold generateUniqueRoomCode at h
  split at h
  · exact absurd h (by simp)
  · rename_i c0 a0 r0 hg
    split at h
    · split at h
      · exact absurd h (by simp)
      · rename_i hfb
        simp only [Option.some.injEq, Prod.mk.injEq] at h
        obtain ⟨rfl, -, -⟩ := h
        obtain ⟨⟨s, hs, rfl⟩, -⟩ := fallbackLoop_shape _ _ _ _ hfb
        exact ⟨s, genLoop_rest_sub _ _ _ _ _ _ hg s hs, rfl⟩
    · simp only [Option.some.injEq, Prod.mk.injEq] at h
      obtain ⟨rfl, -, -⟩ := h
      exact genLoop_shape _ _ _ _ _ _ hg

/-! ### Small facts about the state operations -/

lemma contains_iff_mem (l : List String) (k : String) : l.contains k = true ↔ k ∈ l := by
  simp [List.contains]

@[simp] lemma setRoom_socks (st : ServerState) (c : String) (r : Room) :
    (setRoom st c r).socks = st.socks := by
  unfold setRoom; split <;> rfl

@[simp] lemma setRoom_used (st : ServerState) (c : String) (r : Room) :
    (setRoom st c r).usedCodes = st.usedCodes := by
  unfold setRoom; split <;> rfl

@[simp] lemma setRoom_userSessions (st : ServerState) (c : String) (r : Room) :
    (setRoom st c r).userSessions = st.userSessions := by
  unfold setRoom; split <;> rfl

@[simp] lemma setRoom_usernameSessions (st : ServerState) (c : String) (r : Room) :
    (setRoom st c r).usernameSessions = st.usernameSessions := by
  unfold setRoom; split <;> rfl

@[simp] lemma setSock_rooms (st : ServerState) (sid : String) (s : SockState) :
    (setSock st sid s).rooms = st.rooms := by
  unfold setSock; split <;> rfl

@[simp] lemma setSock_used (st : ServerState) (sid : String) (s : SockState) :
    (setSock st sid s).usedCodes = st.usedCodes := by
  unfold setSock; split <;> rfl

@[simp] lemma setSock_userSessions (st : ServerState) (sid : String) (s : SockState) :
    (setSock st sid s).userSessions = st.userSessions := by
  unfold setSock; split <;> rfl

@[simp] lemma setSock_usernameSessions (st : ServerState) (sid : String) (s : SockState) :
    (setSock st sid s).usernameSessions = st.usernameSessions := by
  unfold setSock; split <;> rfl

@[simp] lemma addUsedCode_rooms (st : ServerState) (c : String) :
    (addUsedCode st c).rooms = st.rooms := by
  unfold addUsedCode; split <;> rfl

@[simp] lemma addUsedCode_socks (st : ServerState) (c : String) :
    (addUsedCode st c).socks = st.socks := by
  unfold addUsedCode; split <;> rfl

@[simp] lemma addUsedCode_userSessions (st : ServerState) (c : String) :
    (addUsedCode st c).userSessions = st.userSessions := by
  unfold addUsedCode; split <;> rfl

@[simp] lemma addUsedCode_usernameSessions (st : ServerState) (c : String) :
    (addUsedCode st c).usernameSessions = st.usernameSessions := by
  unfold addUsedCode; split <;> rfl

lemma contains_addUsedCode_self (st : ServerState) (c : String) :
    (addUsedCode st c).usedCodes.contains c = true := by
  unfold addUsedCode
  split
  · assumption
  · rw [contains_iff_mem]
    exact List.mem_append_right _ (List.mem_singleton.mpr rfl)

lemma contains_addUsedCode_of (st : ServerState) (c k : String)
    (h : st.usedCodes.contains k = true) :
    (addUsedCode st c).usedCodes.contains k = true := by
  unfold addUsedCode
  split
  · exact h
  · rw [contains_iff_mem] at h ⊢
    exact List.mem_append_left _ h

lemma findRoom_mem {st : ServerState} {code : String} {room : Room}
    (h : findRoom st code = some room) :
    ∃ e ∈ st.rooms, e.1 = code ∧ e.2 = room := by
  unfold findRoom at h
  cases hf : st.rooms.find? (fun e => e.1 == code) with
  | none => rw [hf] at h; simp at h
  | some e =>
    rw [hf] at h
    simp only [Option.map_some', Option.some.injEq] at h
    refine ⟨e, List.mem_of_find?_eq_some hf, ?_, h⟩
    have := List.find?_some hf
    simpa using this

lemma find?_set_of_any {c : String} {r : Room} :
    ∀ l : List (String × Room), l.any (fun e => e.1 == c) = true →
      (l.map (fun e => if e.1 == c then (c, r) else e)).find? (fun e => e.1 == c) = some (c, r) := by
  intro l
  induction l with
  | nil => intro h; simp at h
  | cons e es ih =>
    intro h
    by_cases he : e.1 == c
    · simp only [List.map_cons, he, if_true, List.find?_cons]
      have : ((c, r).1 == c) = true := by simp
      simp [this]
    · simp only [List.map_cons, he, if_false, List.find?_cons]
      have hb : (e.1 == c) = false := by simpa using he
      simp only [hb, Bool.false_eq_true, if_false]
      apply ih
      simp only [List.any_cons, hb, Bool.false_or] at h
      exact h

lemma findRoom_setRoom (st : ServerState) (c : String) (r : Room) :
    findRoom (setRoom st c r) c = some r := by
  unfold findRoom setRoom
  split
  · rename_i hany
    rw [find?_set_of_any _ hany]
    rfl
  · rename_i hany
    have hnone : st.rooms.find? (fun e => e.1 == c) = none := by
      rw [List.find?_eq_none]
      intro x hx hpx
      exact hany (List.any_eq_true.mpr ⟨x, hx, hpx⟩)
    show ((st.rooms ++ [(c, r)]).find? (fun e => e.1 == c)).map (fun e => e.2) = some r
    rw [List.find?_append, hnone]
    simp

lemma spliceFirst_length {p : ChatUser → Bool} :
    ∀ l u l', spliceFirst p l = some (u, l') → l'.length + 1 = l.length := by
  intro l
  induction l with
  | nil => intro u l' h; simp [spliceFirst] at h
  | cons x xs ih =>
    intro u l' h
    simp only [spliceFirst] at h
    split at h
    · simp only [Option.some.injEq, Prod.mk.injEq] at h
      obtain ⟨-, rfl⟩ := h
      simp
    · cases hs : spliceFirst p xs with
      | none => rw [hs] at h; simp at h
      | some rr =>
        rw [hs] at h
        simp only [Option.map_some', Option.some.injEq] at h
        obtain ⟨-, rfl⟩ := Prod.mk.injEq .. ▸ h
        have := ih rr.1 rr.2 (by rw [hs])
        simp only [List.length_cons]
        omega

/-! ### Reachable-state invariants -/

/-- Every active room holds at most two participants. -/
def usersBound (st : ServerState) : Prop :=
  ∀ e ∈ st.rooms, e.2.users.length ≤ 2

/-- Every active room's code is recorded in the used-code set. -/
def roomsSubUsed (st : ServerState) : Prop :=
  ∀ e ∈ st.rooms, st.usedCodes.contains e.1 = true

lemma usersBound_of_rooms_eq {st st' : ServerState}
    (hr : st'.rooms = st.rooms) (h : usersBound st) : usersBound st' :=
  fun e he => h e (hr ▸ he)

lemma roomsSubUsed_of_eq {st st' : ServerState}
    (hr : st'.rooms = st.rooms) (hu : st'.usedCodes = st.usedCodes)
    (h : roomsSubUsed st) : roomsSubUsed st' :=
  fun e he => by rw [hu]; exact h e (hr ▸ he)

lemma usersBound_setRoom {st : ServerState} {c : String} {r : Room}
    (h : usersBound st) (hr : r.users.length ≤ 2) : usersBound (setRoom st c r) := by
  intro e he
  unfold setRoom at he
  by_cases hany : st.rooms.any (fun x => x.1 == c) = true
  · simp only [hany, if_true] at he
    obtain ⟨e0, he0, rfl⟩ := List.mem_map.mp he
    split
    · exact hr
    · exact h e0 he0
  · simp only [hany, if_false] at he
    rcases List.mem_append.mp he with h1 | h2
    · exact h e h1
    · rw [List.mem_singleton.mp h2]
      exact hr

lemma roomsSubUsed_setRoom {st : ServerState} {c : String} {r : Room}
    (h : roomsSubUsed st) (hc : st.usedCodes.contains c = true) :
    roomsSubUsed (setRoom st c r) := by
  intro e he
  rw [setRoom_used]
  unfold setRoom at he
  by_cases hany : st.rooms.any (fun x => x.1 == c) = true
  · simp only [hany, if_true] at he
    obtain ⟨e0, he0, rfl⟩ := List.mem_map.mp he
    split
    · exact hc
    · exact h e0 he0
  · simp only [hany, if_false] at he
    rcases List.mem_append.mp he with h1 | h2
    · exact h e h1
    · rw [List.mem_singleton.mp h2]
      exact hc

lemma usersBound_filter {st : ServerState} (h : usersBound st) (p : String × Room → Bool) :
    usersBound { st with rooms := st.rooms.filter p } :=
  fun e he => h e (List.mem_filter.mp he).1

lemma roomsSubUsed_destroy {st : ServerState} {c : String} (h : roomsSubUsed st) :
    roomsSubUsed (delUsedCode (delRoom st c) c) := by
  intro e he
  simp only [delUsedCode, delRoom] at he ⊢
  obtain ⟨hmem, hne⟩ := List.mem_filter.mp he
  have hc := h e hmem
  rw [contains_iff_mem] at hc ⊢
  exact List.mem_filter.mpr ⟨hc, hne⟩

lemma roomsSubUsed_addUsedCode {st : ServerState} {c : String} (h : roomsSubUsed st) :
    roomsSubUsed (addUsedCode st c) := by
  intro e he
  rw [addUsedCode_rooms] at he
  exact contains_addUsedCode_of _ _ _ (h e he)

@[simp] lemma delRoom_used (st : ServerState) (c : String) :
    (delRoom st c).usedCodes = st.usedCodes := rfl

@[simp] lemma delRoom_socks (st : ServerState) (c : String) :
    (delRoom st c).socks = st.socks := rfl

@[simp] lemma delUsedCode_rooms (st : ServerState) (c : String) :
    (delUsedCode st c).rooms = st.rooms := rfl

@[simp] lemma delUsedCode_socks (st : ServerState) (c : String) :
    (delUsedCode st c).socks = st.socks := rfl

lemma typingH_st (st : ServerState) (sid u : String) (b : Bool) :
    (typingH st sid u b).st = st := by
  unfold typingH
  split <;> rfl

lemma voiceChatOfferH_st (st : ServerState) (sid p : String) :
    (voiceChatOfferH st sid p).st = st := by
  unfold voiceChatOfferH
  split
  · rfl
  · split <;> rfl

lemma voiceChatAnswerH_st (st : ServerState) (sid p : String) :
    (voiceChatAnswerH st sid p).st = st := by
  unfold voiceChatAnswerH
  split
  · rfl
  · split <;> rfl

lemma iceCandidateH_st (st : ServerState) (sid p : String) :
    (iceCandidateH st sid p).st = st := by
  unfold iceCandidateH
  split
  · rfl
  · split <;> rfl

lemma usersBound_join {st : ServerState} (h : usersBound st)
    (sid code : String) (u : Option String) (r now : Nat) :
    usersBound (joinRoom st sid code u r now).st := by
  unfold joinRoom
  split
  · exact h
  split
  · exact h
  rename_i room hroom
  split
  · exact h
  split
  · exact h
  dsimp only
  split
  · exact h
  · rename_i hfull hdup hsess
    dsimp only
    apply usersBound_of_rooms_eq (setSock_rooms _ _ _)
    apply usersBound_setRoom h
    simp only [List.length_append, List.length_singleton]
    omega

lemma roomsSubUsed_join {st : ServerState} (h : roomsSubUsed st)
    (sid code : String) (u : Option String) (r now : Nat) :
    roomsSubUsed (joinRoom st sid code u r now).st := by
  unfold joinRoom
  split
  · exact h
  split
  · exact h
  rename_i room hroom
  split
  · exact h
  split
  · exact h
  dsimp only
  split
  · exact h
  · dsimp only
    apply roomsSubUsed_of_eq (setSock_rooms _ _ _) (setSock_used _ _ _)
    apply roomsSubUsed_setRoom h
    obtain ⟨e, hmem, hkey, -⟩ := findRoom_mem hroom
    rw [← hkey]
    exact h e hmem

lemma usersBound_create {st : ServerState} (h : usersBound st)
    (sid : String) (u : Option String) (samples : List Nat) (r now : Nat) :
    usersBound ((((createRoom st sid u samples r now)).map Res.st).getD st) := by
  unfold createRoom
  split
  · exact h
  · rename_i code st1 rest hg
    dsimp only [Option.map_some', Option.getD_some]
    apply usersBound_of_rooms_eq (setSock_rooms _ _ _)
    apply usersBound_setRoom _ (by simp)
    apply usersBound_setRoom _ (by simp)
    rw [gen_state _ _ _ _ _ hg]
    exact usersBound_of_rooms_eq (addUsedCode_rooms _ _) h

lemma roomsSubUsed_create {st : ServerState} (h : roomsSubUsed st)
    (sid : String) (u : Option String) (samples : List Nat) (r now : Nat) :
    roomsSubUsed ((((createRoom st sid u samples r now)).map Res.st).getD st) := by
  unfold createRoom
  split
  · exact h
  · rename_i code st1 rest hg
    dsimp only [Option.map_some', Option.getD_some]
    apply roomsSubUsed_of_eq (setSock_rooms _ _ _) (setSock_used _ _ _)
    have hc : st1.usedCodes.contains code = true := by
      rw [gen_state _ _ _ _ _ hg]
      exact contains_addUsedCode_self _ _
    apply roomsSubUsed_setRoom _ (by rw [setRoom_used]; exact hc)
    apply roomsSubUsed_setRoom _ hc
    rw [gen_state _ _ _ _ _ hg]
    exact roomsSubUsed_addUsedCode h

lemma usersBound_send {st : ServerState} (h : usersBound st)
    (sid : String) (m : Option String) (r now : Nat) :
    usersBound ((((sendMessage st sid m r now)).map Res.st).getD st) := by
  unfold sendMessage
  split
  · exact h
  split
  · exact h
  rename_i rc hrc room hroom
  split
  · exact h
  split
  · exact h
  · rename_i user huser text
    dsimp only [Option.map_some', Option.getD_some]
    apply usersBound_setRoom h
    obtain ⟨e, hmem, -, hval⟩ := findRoom_mem hroom
    have := h e hmem
    rw [hval] at this
    exact this

lemma roomsSubUsed_send {st : ServerState} (h : roomsSubUsed st)
    (sid : String) (m : Option String) (r now : Nat) :
    roomsSubUsed ((((sendMessage st sid m r now)).map Res.st).getD st) := by
  unfold sendMessage
  split
  · exact h
  split
  · exact h
  rename_i rc hrc room hroom
  split
  · exact h
  split
  · exact h
  · rename_i user huser text
    dsimp only [Option.map_some', Option.getD_some]
    apply roomsSubUsed_setRoom h
    obtain ⟨e, hmem, hkey, -⟩ := findRoom_mem hroom
    rw [← hkey]
    exact h e hmem

lemma usersBound_socksF (st : ServerState) (s : List (String × SockState))
    (h : usersBound st) : usersBound { st with socks := s } :=
  fun e he => h e he

lemma roomsSubUsed_socksF (st : ServerState) (s : List (String × SockState))
    (h : roomsSubUsed st) : roomsSubUsed { st with socks := s } :=
  fun e he => h e he

lemma usersBound_sessionsF (st : ServerState) (us uns : List String)
    (h : usersBound st) :
    usersBound { st with userSessions := us, usernameSessions := uns } :=
  fun e he => h e he

lemma roomsSubUsed_sessionsF (st : ServerState) (us uns : List String)
    (h : roomsSubUsed st) :
    roomsSubUsed { st with userSessions := us, usernameSessions := uns } :=
  fun e he => h e he

lemma usersBound_leave {st : ServerState} (h : usersBound st) (sid : String) :
    usersBound (leaveRoomH st sid).st := by
  unfold leaveRoomH
  split
  · exact h
  rename_i rc hrc
  split
  · exact h
  rename_i room hroom
  split
  · exact h
  rename_i pr hsplice
  have hb : pr.length ≤ 2 := by
    have hsl := spliceFirst_length _ _ _ hsplice
    obtain ⟨e, hmem, -, hval⟩ := findRoom_mem hroom
    have hbe := h e hmem
    rw [hval] at hbe
    omega
  have h1 : usersBound (setRoom st rc { room with users := pr }) :=
    usersBound_setRoom h hb
  dsimp only
  split
  · refine usersBound_of_rooms_eq rfl (usersBound_filter (usersBound_setRoom ?_ ?_) _)
    · exact usersBound_sessionsF _ _ _
        (usersBound_of_rooms_eq (setSock_rooms _ _ _) h1)
    · exact hb
  · exact usersBound_sessionsF _ _ _
      (usersBound_of_rooms_eq (setSock_rooms _ _ _) h1)

lemma roomsSubUsed_leave {st : ServerState} (h : roomsSubUsed st) (sid : String) :
    roomsSubUsed (leaveRoomH st sid).st := by
  unfold leaveRoomH
  split
  · exact h
  rename_i rc hrc
  split
  · exact h
  rename_i room hroom
  split
  · exact h
  rename_i pr hsplice
  have hkey : st.usedCodes.contains rc = true := by
    obtain ⟨e, hmem, hk, -⟩ := findRoom_mem hroom
    rw [← hk]
    exact h e hmem
  have h1 : roomsSubUsed (setRoom st rc { room with users := pr }) :=
    roomsSubUsed_setRoom h hkey
  have h2 : roomsSubUsed (setSock (setRoom st rc { room with users := pr }) sid
      { roomCode := none,
        joined := (getSock (setRoom st rc { room with users := pr }) sid).joined.filter
          (fun c => !(c == rc)) }) :=
    roomsSubUsed_of_eq (setSock_rooms _ _ _) (setSock_used _ _ _) h1
  dsimp only
  split
  · refine roomsSubUsed_destroy (roomsSubUsed_setRoom (roomsSubUsed_sessionsF _ _ _ h2) ?_)
    simp only [setSock_used, setRoom_used]
    exact hkey
  · exact roomsSubUsed_sessionsF _ _ _ h2

lemma usersBound_disconnect {st : ServerState} (h : usersBound st) (sid : String) :
    usersBound (disconnectH st sid).st := by
  unfold disconnectH
  split
  · exact usersBound_socksF _ _ h
  rename_i rc hrc
  split
  · exact usersBound_socksF _ _ h
  rename_i room hroom
  split
  · exact usersBound_socksF _ _ h
  rename_i pr hsplice
  have hb : pr.length ≤ 2 := by
    have hsl := spliceFirst_length _ _ _ hsplice
    obtain ⟨e, hmem, -, hval⟩ := findRoom_mem hroom
    have hbe := h e hmem
    rw [hval] at hbe
    omega
  have h1 : usersBound (setRoom st rc { room with users := pr }) :=
    usersBound_setRoom h hb
  dsimp only
  split
  · refine usersBound_socksF _ _
      (usersBound_of_rooms_eq rfl (usersBound_filter (usersBound_setRoom ?_ ?_) _))
    · exact usersBound_sessionsF _ _ _ h1
    · exact hb
  · exact usersBound_socksF _ _ (usersBound_sessionsF _ _ _ h1)

lemma roomsSubUsed_disconnect {st : ServerState} (h : roomsSubUsed st) (sid : String) :
    roomsSubUsed (disconnectH st sid).st := by
  unfold disconnectH
  split
  · exact roomsSubUsed_socksF _ _ h
  rename_i rc hrc
  split
  · exact roomsSubUsed_socksF _ _ h
  rename_i room hroom
  split
  · exact roomsSubUsed_socksF _ _ h
  rename_i pr hsplice
  have hkey : st.usedCodes.contains rc = true := by
    obtain ⟨e, hmem, hk, -⟩ := findRoom_mem hroom
    rw [← hk]
    exact h e hmem
  have h1 : roomsSubUsed (setRoom st rc { room with users := pr }) :=
    roomsSubUsed_setRoom h hkey
  dsimp only
  split
  · refine roomsSubUsed_socksF _ _
      (roomsSubUsed_destroy (roomsSubUsed_setRoom (roomsSubUsed_sessionsF _ _ _ h1) ?_))
    simp only [setRoom_used]
    exact hkey
  · exact roomsSubUsed_socksF _ _ (roomsSubUsed_sessionsF _ _ _ h1)

lemma usersBound_startVoice {st : ServerState} (h : usersBound st) (sid : String) :
    usersBound (startVoiceChatH st sid).st := by
  unfold startVoiceChatH
  split
  · exact h
  rename_i rc hrc
  split
  · exact h
  rename_i room hroom
  dsimp only
  apply usersBound_setRoom h
  obtain ⟨e, hmem, -, hval⟩ := findRoom_mem hroom
  have hbe := h e hmem
  rw [hval] at hbe
  exact hbe

lemma roomsSubUsed_startVoice {st : ServerState} (h : roomsSubUsed st) (sid : String) :
    roomsSubUsed (startVoiceChatH st sid).st := by
  unfold startVoiceChatH
  split
  · exact h
  rename_i rc hrc
  split
  · exact h
  rename_i room hroom
  dsimp only
  apply roomsSubUsed_setRoom h
  obtain ⟨e, hmem, hk, -⟩ := findRoom_mem hroom
  rw [← hk]
  exact h e hmem

lemma usersBound_endVoice {st : ServerState} (h : usersBound st) (sid : String) :
    usersBound (endVoiceChatH st sid).st := by
  unfold endVoiceChatH
  split
  · exact h
  rename_i rc hrc
  split
  · exact h
  rename_i room hroom
  dsimp only
  apply usersBound_setRoom h
  obtain ⟨e, hmem, -, hval⟩ := findRoom_mem hroom
  have hbe := h e hmem
  rw [hval] at hbe
  exact hbe

lemma roomsSubUsed_endVoice {st : ServerState} (h : roomsSubUsed st) (sid : String) :
    roomsSubUsed (endVoiceChatH st sid).st := by
  unfold endVoiceChatH
  split
  · exact h
  rename_i rc hrc
  split
  · exact h
  rename_i room hroom
  dsimp only
  apply roomsSubUsed_setRoom h
  obtain ⟨e, hmem, hk, -⟩ := findRoom_mem hroom
  rw [← hk]
  exact h e hmem

lemma usersBound_sweep_fold (now : Nat) :
    ∀ (l : List (String × Room)) (acc : Res), usersBound acc.st →
      usersBound (l.foldl (sweepStep now) acc).st := by
  intro l
  induction l with
  | nil => intro acc h; exact h
  | cons e es ih =>
    intro acc h
    apply ih
    unfold sweepStep
    split
    · exact usersBound_of_rooms_eq rfl (usersBound_filter h _)
    · exact h

lemma roomsSubUsed_sweep_fold (now : Nat) :
    ∀ (l : List (String × Room)) (acc : Res), roomsSubUsed acc.st →
      roomsSubUsed (l.foldl (sweepStep now) acc).st := by
  intro l
  induction l with
  | nil => intro acc h; exact h
  | cons e es ih =>
    intro acc h
    apply ih
    unfold sweepStep
    split
    · exact roomsSubUsed_destroy h
    · exact h

lemma usersBound_genEndpoint {st : ServerState} (h : usersBound st) (samples : List Nat) :
    usersBound ((((generateRoomCodeEndpoint st samples)).map (fun r => r.2)).getD st) := by
  unfold generateRoomCodeEndpoint
  cases hg : generateUniqueRoomCode st samples with
  | none => exact h
  | some v =>
    obtain ⟨code, st', rest⟩ := v
    have hgs := gen_state _ _ _ _ _ hg
    dsimp only [Option.map_some', Option.getD_some]
    rw [hgs]
    exact usersBound_of_rooms_eq (addUsedCode_rooms _ _) h

lemma roomsSubUsed_genEndpoint {st : ServerState} (h : roomsSubUsed st) (samples : List Nat) :
    roomsSubUsed ((((generateRoomCodeEndpoint st samples)).map (fun r => r.2)).getD st) := by
  unfold generateRoomCodeEndpoint
  cases hg : generateUniqueRoomCode st samples with
  | none => exact h
  | some v =>
    obtain ⟨code, st', rest⟩ := v
    have hgs := gen_state _ _ _ _ _ hg
    dsimp only [Option.map_some', Option.getD_some]
    rw [hgs]
    exact roomsSubUsed_addUsedCode h

lemma usersBound_apply {st : ServerState} (h : usersBound st) (a : Act) :
    usersBound (applyAction st a) := by
  cases a with
  | createA sid u samples r now => exact usersBound_create h sid u samples r now
  | joinA sid code u r now => exact usersBound_join h sid code u r now
  | sendA sid m r now => exact usersBound_send h sid m r now
  | typingA sid u b => rw [applyAction, typingH_st]; exact h
  | leaveA sid => exact usersBound_leave h sid
  | disconnectA sid => exact usersBound_disconnect h sid
  | sweepA now => exact usersBound_sweep_fold now _ _ h
  | offerA sid p => rw [applyAction, voiceChatOfferH_st]; exact h
  | answerA sid p => rw [applyAction, voiceChatAnswerH_st]; exact h
  | iceA sid p => rw [applyAction, iceCandidateH_st]; exact h
  | startVoiceA sid => exact usersBound_startVoice h sid
  | endVoiceA sid => exact usersBound_endVoice h sid
  | genCodeA samples => exact usersBound_genEndpoint h samples

lemma roomsSubUsed_apply {st : ServerState} (h : roomsSubUsed st) (a : Act) :
    roomsSubUsed (applyAction st a) := by
  cases a with
  | createA sid u samples r now => exact roomsSubUsed_create h sid u samples r now
  | joinA sid code u r now => exact roomsSubUsed_join h sid code u r now
  | sendA sid m r now => exact roomsSubUsed_send h sid m r now
  | typingA sid u b => rw [applyAction, typingH_st]; exact h
  | leaveA sid => exact roomsSubUsed_leave h sid
  | disconnectA sid => exact roomsSubUsed_disconnect h sid
  | sweepA now => exact roomsSubUsed_sweep_fold now _ _ h
  | offerA sid p => rw [applyAction, voiceChatOfferH_st]; exact h
  | answerA sid p => rw [applyAction, voiceChatAnswerH_st]; exact h
  | iceA sid p => rw [applyAction, iceCandidateH_st]; exact h
  | startVoiceA sid => exact roomsSubUsed_startVoice h sid
  | endVoiceA sid => exact roomsSubUsed_endVoice h sid
  | genCodeA samples => exact roomsSubUsed_genEndpoint h samples

lemma usersBound_run (acts : List Act) : usersBound (runActions initState acts) := by
  have gen : ∀ (l : List Act) (st : ServerState), usersBound st →
      usersBound (runActions st l) := by
    intro l
    induction l with
    | nil => intro st h; exact h
    | cons a l ih => intro st h; exact ih _ (usersBound_apply h a)
  exact gen acts initState (fun e he => by simp [initState] at he)

lemma roomsSubUsed_run (acts : List Act) : roomsSubUsed (runActions initState acts) := by
  have gen : ∀ (l : List Act) (st : ServerState), roomsSubUsed st →
      roomsSubUsed (runActions st l) := by
    intro l
    induction l with
    | nil => intro st h; exact h
    | cons a l ih => intro st h; exact ih _ (roomsSubUsed_apply h a)
  exact gen acts initState (fun e he => by simp [initState] at he)

/-! ### Branch-evaluation lemmas for the handlers -/

lemma joinRoom_eval_badCode {st : ServerState} {sid code : String} {username : Option String}
    {nameRnd now : Nat} (h4 : isFourDigitCode code = false) :
    joinRoom st sid code username nameRnd now =
      { st := st, out := [(sid, Ev.errorEv invalidCodeMsg)] } := by
  unfold joinRoom
  rw [h4]
  rfl

lemma joinRoom_eval_notFound {st : ServerState} {sid code : String} {username : Option String}
    {nameRnd now : Nat} (h4 : isFourDigitCode code = true)
    (hroom : findRoom st code = none) :
    joinRoom st sid code username nameRnd now =
      { st := st, out := [(sid, Ev.errorEv roomNotFoundMsg)] } := by
  unfold joinRoom
  rw [h4, hroom]
  simp only [Bool.not_true, Bool.false_eq_true, if_false]

lemma joinRoom_eval_full {st : ServerState} {sid code : String} {username : Option String}
    {nameRnd now : Nat} {room : Room} (h4 : isFourDigitCode code = true)
    (hroom : findRoom st code = some room) (hfull : 2 ≤ room.users.length) :
    joinRoom st sid code username nameRnd now =
      { st := st, out := [(sid, Ev.roomFull)] } := by
  unfold joinRoom
  rw [h4, hroom]
  simp only [Bool.not_true, Bool.false_eq_true, if_false]
  rw [if_pos hfull]

lemma joinRoom_eval_dup {st : ServerState} {sid code : String} {username : Option String}
    {nameRnd now : Nat} {room : Room} (h4 : isFourDigitCode code = true)
    (hroom : findRoom st code = some room) (hfull : ¬ 2 ≤ room.users.length)
    (hany : (room.users.any fun u => u.socketId == sid) = true) :
    joinRoom st sid code username nameRnd now =
      { st := st, out := [(sid, Ev.errorEv alreadyInRoomMsg)] } := by
  unfold joinRoom
  rw [h4, hroom]
  simp only [Bool.not_true, Bool.false_eq_true, if_false]
  rw [if_neg hfull, if_pos hany]

lemma joinRoom_eval_rejoin {st : ServerState} {sid code : String} {username : Option String}
    {nameRnd now : Nat} {room : Room} (h4 : isFourDigitCode code = true)
    (hroom : findRoom st code = some room) (hfull : ¬ 2 ≤ room.users.length)
    (hany : (room.users.any fun u => u.socketId == sid) = false)
    (hses : (st.userSessions.contains (sid ++ "-" ++ code) ||
      st.usernameSessions.contains (jsOr username "anonymous" ++ "-" ++ code)) = true) :
    joinRoom st sid code username nameRnd now =
      { st := st, out := [(sid, Ev.errorEv rejoinMsg)] } := by
  unfold joinRoom
  rw [h4, hroom]
  simp only [Bool.not_true, Bool.false_eq_true, if_false]
  rw [if_neg hfull]
  rw [hany]
  simp only [Bool.false_eq_true, if_false]
  rw [if_pos hses]

lemma joinRoom_eval_success {st : ServerState} {sid code : String} {username : Option String}
    {nameRnd now : Nat} {room : Room} (h4 : isFourDigitCode code = true)
    (hroom : findRoom st code = some room) (hfull : ¬ 2 ≤ room.users.length)
    (hany : (room.users.any fun u => u.socketId == sid) = false)
    (hses : (st.userSessions.contains (sid ++ "-" ++ code) ||
      st.usernameSessions.contains (jsOr username "anonymous" ++ "-" ++ code)) = false) :
    joinRoom st sid code username nameRnd now =
      let user : ChatUser :=
        { socketId := sid
          username := jsOr username ("User" ++ decimalRepr nameRnd)
          joinedAt := now }
      let room' : Room :=
        { room with
          users := room.users ++ [user]
          lastActivity := now
          expiresAt := now + ROOM_EXPIRY_TIME }
      let st1 := setRoom st code room'
      let sock1 := joinSockRoom (getSock st1 sid) code
      let st2 := setSock st1 sid { sock1 with roomCode := some code }
      { st := st2
        out := (sid, Ev.joinedRoom code user.username room'.users.length room'.messages) ::
          sockTo st2 sid code (Ev.userJoined user.username room'.users.length) } := by
  unfold joinRoom
  rw [h4, hroom]
  simp only [Bool.not_true, Bool.false_eq_true, if_false]
  rw [if_neg hfull]
  rw [hany]
  simp only [Bool.false_eq_true, if_false]
  rw [hses]
  simp only [Bool.false_eq_true, if_false]

lemma sendMessage_eval_success {st : ServerState} {sid : String} {text : String}
    {idRnd now : Nat} {rc : String} {room : Room} {user : ChatUser}
    (hrc : (getSock st sid).roomCode = some rc)
    (hroom : findRoom st rc = some room)
    (huser : room.users.find? (fun u => u.socketId == sid) = some user) :
    sendMessage st sid (some text) idRnd now =
      let msg : ChatMessage :=
        { id := now + idRnd
          username := user.username
          message := text.trim
          timestamp := now
          socketId := sid }
      let room' : Room :=
        { room with
          messages := room.messages ++ [msg]
          lastActivity := now
          expiresAt := now + ROOM_EXPIRY_TIME }
      let st1 := setRoom st rc room'
      some { st := st1, out := ioTo st1 rc (Ev.newMessage msg) } := by
  unfold sendMessage
  rw [hrc]
  dsimp only
  rw [hroom]
  dsimp only
  rw [huser]

lemma sendMessage_eval_crash {st : ServerState} {sid : String}
    {idRnd now : Nat} {rc : String} {room : Room} {user : ChatUser}
    (hrc : (getSock st sid).roomCode = some rc)
    (hroom : findRoom st rc = some room)
    (huser : room.users.find? (fun u => u.socketId == sid) = some user) :
    sendMessage st sid none idRnd now = none := by
  unfold sendMessage
  rw [hrc]
  dsimp only
  rw [hroom]
  dsimp only
  rw [huser]

lemma leaveRoom_eval_last {st : ServerState} {sid : String} {rc : String} {room : Room}
    {user : ChatUser}
    (hrc : (getSock st sid).roomCode = some rc)
    (hroom : findRoom st rc = some room)
    (hsplice : spliceFirst (fun u => u.socketId == sid) room.users = some (user, [])) :
    leaveRoomH st sid =
      let st1 := setRoom st rc { room with users := [] }
      let st2 := setSock st1 sid
        { roomCode := none
          joined := (getSock st1 sid).joined.filter (fun c => !(c == rc)) }
      let st3 : ServerState :=
        { st2 with
          userSessions := addKey st2.userSessions (sid ++ "-" ++ rc)
          usernameSessions := addKey st2.usernameSessions (user.username ++ "-" ++ rc) }
      let st4 := delUsedCode (delRoom (setRoom st3 rc { room with users := [], messages := [] }) rc) rc
      { st := st4
        out := sockTo st3 sid rc (Ev.userLeft user.username 0) ++ [(sid, Ev.leftRoom)] } := by
  unfold leaveRoomH
  rw [hrc]
  dsimp only
  rw [hroom]
  dsimp only
  rw [hsplice]
  rfl

lemma leaveRoom_eval_keep {st : ServerState} {sid : String} {rc : String} {room : Room}
    {user : ChatUser} {rest : List ChatUser}
    (hrc : (getSock st sid).roomCode = some rc)
    (hroom : findRoom st rc = some room)
    (hsplice : spliceFirst (fun u => u.socketId == sid) room.users = some (user, rest))
    (hne : rest.length ≠ 0) :
    leaveRoomH st sid =
      let st1 := setRoom st rc { room with users := rest }
      let st2 := setSock st1 sid
        { roomCode := none
          joined := (getSock st1 sid).joined.filter (fun c => !(c == rc)) }
      let st3 : ServerState :=
        { st2 with
          userSessions := addKey st2.userSessions (sid ++ "-" ++ rc)
          usernameSessions := addKey st2.usernameSessions (user.username ++ "-" ++ rc) }
      { st := st3
        out := sockTo st3 sid rc (Ev.userLeft user.username rest.length) ++
          [(sid, Ev.leftRoom)] } := by
  unfold leaveRoomH
  rw [hrc]
  dsimp only
  rw [hroom]
  dsimp only
  rw [hsplice]
  dsimp only
  simp only [hne, if_false]

lemma voiceOffer_eval_none {st : ServerState} {sid p : String}
    (hrc : (getSock st sid).roomCode = none) :
    voiceChatOfferH st sid p = { st := st, out := [] } := by
  unfold voiceChatOfferH
  rw [hrc]

lemma voiceOffer_eval_active {st : ServerState} {sid p rc : String}
    (hrc : (getSock st sid).roomCode = some rc) (hhas : hasRoom st rc = true) :
    voiceChatOfferH st sid p =
      { st := st, out := sockTo st sid rc (Ev.voiceChatOffer p) } := by
  unfold voiceChatOfferH
  rw [hrc]
  dsimp only
  simp only [hhas, if_true]

lemma voiceOffer_eval_stale {st : ServerState} {sid p rc : String}
    (hrc : (getSock st sid).roomCode = some rc) (hhas : hasRoom st rc = false) :
    voiceChatOfferH st sid p = { st := st, out := [] } := by
  unfold voiceChatOfferH
  rw [hrc]
  dsimp only
  simp only [hhas, Bool.false_eq_true, if_false]

lemma voiceAnswer_eval_active {st : ServerState} {sid p rc : String}
    (hrc : (getSock st sid).roomCode = some rc) (hhas : hasRoom st rc = true) :
    voiceChatAnswerH st sid p =
      { st := st, out := sockTo st sid rc (Ev.voiceChatAnswer p) } := by
  unfold voiceChatAnswerH
  rw [hrc]
  dsimp only
  simp only [hhas, if_true]

lemma iceCandidate_eval_active {st : ServerState} {sid p rc : String}
    (hrc : (getSock st sid).roomCode = some rc) (hhas : hasRoom st rc = true) :
    iceCandidateH st sid p =
      { st := st, out := sockTo st sid rc (Ev.iceCandidate p) } := by
  unfold iceCandidateH
  rw [hrc]
  dsimp only
  simp only [hhas, if_true]

lemma startVoice_eval_active {st : ServerState} {sid rc : String} {room : Room}
    (hrc : (getSock st sid).roomCode = some rc) (hroom : findRoom st rc = some room) :
    startVoiceChatH st sid =
      { st := setRoom st rc { room with inVoiceChat := true }
        out := sockTo (setRoom st rc { room with inVoiceChat := true }) sid rc
          Ev.voiceChatStarted } := by
  unfold startVoiceChatH
  rw [hrc]
  dsimp only
  rw [hroom]

lemma endVoice_eval_active {st : ServerState} {sid rc : String} {room : Room}
    (hrc : (getSock st sid).roomCode = some rc) (hroom : findRoom st rc = some room) :
    endVoiceChatH st sid =
      { st := setRoom st rc { room with inVoiceChat := false }
        out := sockTo (setRoom st rc { room with inVoiceChat := false }) sid rc
          Ev.voiceChatEnded } := by
  unfold endVoiceChatH
  rw [hrc]
  dsimp only
  rw [hroom]

lemma sockTo_not_self {st : ServerState} {sid code : String} {ev : Ev} :
    ∀ x ∈ sockTo st sid code ev, x.1 ≠ sid ∧ x.2 = ev := by
  intro x hx
  unfold sockTo at hx
  obtain ⟨e, he, rfl⟩ := List.mem_map.mp hx
  refine ⟨?_, rfl⟩
  have hp := (List.mem_filter.mp he).2
  rw [Bool.and_eq_true] at hp
  intro hcon
  simp only [bne_iff_ne, ne_eq, Bool.not_eq_true', beq_eq_false_iff_ne] at hp
  exact hp.1 hcon

lemma sockTo_socks_congr {st st' : ServerState} {sid code : String} {ev : Ev}
    (h : st.socks = st'.socks) : sockTo st sid code ev = sockTo st' sid code ev := by
  unfold sockTo
  rw [h]

lemma ioTo_socks_congr {st st' : ServerState} {code : String} {ev : Ev}
    (h : st.socks = st'.socks) : ioTo st code ev = ioTo st' code ev := by
  unfold ioTo
  rw [h]

lemma findRoom_setSock (st : ServerState) (sid : String) (s : SockState) (c : String) :
    findRoom (setSock st sid s) c = findRoom st c := by
  unfold findRoom
  rw [setSock_rooms]

lemma find?_upd_of_any {β : Type} {c : String} {r : β} :
    ∀ l : List (String × β), l.any (fun e => e.1 == c) = true →
      (l.map (fun e => if e.1 == c then (c, r) else e)).find? (fun e => e.1 == c) =
        some (c, r) := by
  intro l
  induction l with
  | nil => intro h; simp at h
  | cons e es ih =>
    intro h
    by_cases he : e.1 == c
    · simp only [List.map_cons, he, if_true, List.find?_cons]
      have hc : ((c, r).1 == c) = true := by simp
      simp [hc]
    · simp only [List.map_cons, he, if_false, List.find?_cons]
      have hb : (e.1 == c) = false := by simpa using he
      simp only [hb, Bool.false_eq_true, if_false]
      apply ih
      simp only [List.any_cons, hb, Bool.false_or] at h
      exact h

lemma getSock_setSock (st : ServerState) (sid : String) (s : SockState) :
    getSock (setSock st sid s) sid = s := by
  unfold getSock setSock
  split
  · rename_i hany
    rw [find?_upd_of_any _ hany]
    rfl
  · rename_i hany
    have hnone : st.socks.find? (fun e => e.1 == sid) = none := by
      rw [List.find?_eq_none]
      intro x hx hpx
      exact hany (List.any_eq_true.mpr ⟨x, hx, hpx⟩)
    show (((st.socks ++ [(sid, s)]).find? (fun e => e.1 == sid)).map (fun e => e.2)).getD
      SockState.fresh = s
    rw [List.find?_append, hnone]
    simp

/-! ### Claim theorems -/

/-- C1: over every action sequence (createRoom/joinRoom included) a room's participant
list never holds more than 2 participants, and a joinRoom on a room that already has
2 participants emits exactly `roomFull` and returns the entire server state (participant
lists, messages, expiry deadlines, session ledgers) unchanged. -/
theorem c1_capacity_invariant_and_roomFull :
    (∀ acts : List Act, usersBound (runActions initState acts)) ∧
    (∀ (st : ServerState) (sid code : String) (username : Option String) (nameRnd now : Nat)
      (room : Room), isFourDigitCode code = true → findRoom st code = some room →
      2 ≤ room.users.length →
      joinRoom st sid code username nameRnd now = { st := st, out := [(sid, Ev.roomFull)] }) :=
  ⟨usersBound_run, fun _ _ _ _ _ _ _ h4 hroom hfull => joinRoom_eval_full h4 hroom hfull⟩

/-- Witness for C1: a concrete run reaching a 2-participant room, and the concrete
roomFull answer for a third join. -/
theorem c1_capacity_invariant_and_roomFull_witness :
    usersBound (runActions initState [Act.createA "a" (some "A") [1] 0 0,
      Act.joinA "b" "0001" (some "B") 0 1]) ∧
    joinRoom (runActions initState [Act.createA "a" (some "A") [1] 0 0,
        Act.joinA "b" "0001" (some "B") 0 1]) "c" "0001" (some "C") 0 2 =
      { st := runActions initState [Act.createA "a" (some "A") [1] 0 0,
          Act.joinA "b" "0001" (some "B") 0 1]
        out := [("c", Ev.roomFull)] } :=
  ⟨c1_capacity_invariant_and_roomFull.1 [Act.createA "a" (some "A") [1] 0 0,
      Act.joinA "b" "0001" (some "B") 0 1],
   c1_capacity_invariant_and_roomFull.2 _ "c" "0001" (some "C") 0 2 _ (by decide) rfl
      (by decide)⟩

/-- C9 (code bug): a sendMessage whose payload lacks the `message` field, issued by a
participant of an active room, passes all guards and then crashes on `message.trim()`
(the `none` result models the uncaught TypeError): the fault escapes the handler instead
of a no-op or an error event. -/
theorem c9_sendMessage_missing_field_crash :
    sendMessage (runActions initState [Act.createA "a" (some "A") [1] 0 0]) "a" none 0 5 =
      none := by decide

/-- C2 counterexample: identity "a" (display name "Alice") left room "0005", which was
destroyed; its subsequent joinRoom("0005") fails with the room-not-found error, not the
rejoin-forbidden error the claim requires. -/
theorem c2_rejoin_cex :
    (runActions initState [Act.createA "a" (some "Alice") [5] 0 0,
        Act.leaveA "a"]).userSessions.contains ("a" ++ "-" ++ "0005") = true ∧
    (joinRoom (runActions initState [Act.createA "a" (some "Alice") [5] 0 0, Act.leaveA "a"])
        "a" "0005" (some "Alice") 0 10).out = [("a", Ev.errorEv roomNotFoundMsg)] ∧
    Ev.errorEv roomNotFoundMsg ≠ Ev.errorEv rejoinMsg := by
  decide

/-- C2 (amended): once the session ledger records (identity, code) or (display name,
code), a later joinRoom with that code never changes the state — in particular it never
adds a participant — and it fails with the rejoin-forbidden error precisely when every
earlier guard passes (well-formed code, active room, not full, caller not already in it,
which covers a later room reusing the code); otherwise the earlier guard's error
(invalid code, room not found, room full, already in room) is emitted instead. -/
theorem c2_rejoin_amended (st : ServerState) (sid code : String) (username : Option String)
    (nameRnd now : Nat)
    (hled : st.userSessions.contains (sid ++ "-" ++ code) = true ∨
      st.usernameSessions.contains (jsOr username "anonymous" ++ "-" ++ code) = true) :
    (joinRoom st sid code username nameRnd now).st = st ∧
    (∀ room : Room, isFourDigitCode code = true → findRoom st code = some room →
      ¬ 2 ≤ room.users.length → (room.users.any fun u => u.socketId == sid) = false →
      (joinRoom st sid code username nameRnd now).out = [(sid, Ev.errorEv rejoinMsg)]) := by
  have hor : (st.userSessions.contains (sid ++ "-" ++ code) ||
      st.usernameSessions.contains (jsOr username "anonymous" ++ "-" ++ code)) = true := by
    rw [contains_iff_mem] at hled
    rw [contains_iff_mem] at hled
    simp only [Bool.or_eq_true, contains_iff_mem]
    exact hled
  constructor
  · cases h4 : isFourDigitCode code with
    | false => rw [joinRoom_eval_badCode h4]
    | true =>
      cases hroom : findRoom st code with
      | none => rw [joinRoom_eval_notFound h4 hroom]
      | some room =>
        by_cases hfull : 2 ≤ room.users.length
        · rw [joinRoom_eval_full h4 hroom hfull]
        · cases hany : (room.users.any fun u => u.socketId == sid) with
          | true => rw [joinRoom_eval_dup h4 hroom hfull hany]
          | false => rw [joinRoom_eval_rejoin h4 hroom hfull hany hor]
  · intro room h4 hroom hfull hany
    rw [joinRoom_eval_rejoin h4 hroom hfull hany hor]

/-- Witness for C2 (amended): "b" joined and left room "0007" (still active with its
creator inside); a rejoin attempt by "b" leaves the state unchanged and yields the
rejoin-forbidden error. -/
theorem c2_rejoin_amended_witness :
    (joinRoom (runActions initState [Act.createA "x" (some "X") [7] 0 0,
        Act.joinA "b" "0007" (some "Bob") 0 1, Act.leaveA "b"])
        "b" "0007" (some "Bob") 0 2).st =
      runActions initState [Act.createA "x" (some "X") [7] 0 0,
        Act.joinA "b" "0007" (some "Bob") 0 1, Act.leaveA "b"] ∧
    (∀ room : Room, isFourDigitCode "0007" = true →
      findRoom (runActions initState [Act.createA "x" (some "X") [7] 0 0,
        Act.joinA "b" "0007" (some "Bob") 0 1, Act.leaveA "b"]) "0007" = some room →
      ¬ 2 ≤ room.users.length → (room.users.any fun u => u.socketId == "b") = false →
      (joinRoom (runActions initState [Act.createA "x" (some "X") [7] 0 0,
        Act.joinA "b" "0007" (some "Bob") 0 1, Act.leaveA "b"])
        "b" "0007" (some "Bob") 0 2).out = [("b", Ev.errorEv rejoinMsg)]) :=
  c2_rejoin_amended _ "b" "0007" (some "Bob") 0 2 (Or.inl (by decide))

/-- C3 counterexample: after `GET /generateRoomCode` reserves "0000" (no room created),
a later allocator call whose first 100 samples collide falls back to checking the room
store only, and returns "0000" even though it is still in the used-code set. -/
theorem c3_allocator_cex :
    (generateUniqueRoomCode (runActions initState [Act.genCodeA [0]])
        (List.replicate 101 0)).map
      (fun r => (r.1, (runActions initState [Act.genCodeA [0]]).usedCodes.contains r.1)) =
      some ("0000", true) := by
  decide

/-- C3 (amended): a successful allocator call returns a 4-digit zero-padded decimal
string (for in-range samples) that differs from every active room's code, and the code
is recorded in the used-code set before being returned.  Absence from the used-code set
itself is guaranteed only when the bounded main loop finds the code in fewer than 100
attempts; the fallback path checks the room store alone. -/
theorem c3_allocator_amended (acts : List Act) (samples : List Nat) (code : String)
    (st' : ServerState) (rest : List Nat)
    (hs : ∀ s ∈ samples, s < 10000)
    (h : generateUniqueRoomCode (runActions initState acts) samples = some (code, st', rest)) :
    isFourDigitCode code = true ∧
    (∀ e ∈ (runActions initState acts).rooms, e.1 ≠ code) ∧
    st'.usedCodes.contains code = true ∧
    (∀ a r0, genLoop samples 0 (runActions initState acts).usedCodes = some (code, a, r0) →
      a < 100 → (runActions initState acts).usedCodes.contains code = false) := by
  refine ⟨?_, ?_, ?_, ?_⟩
  · obtain ⟨s, hsmem, rfl⟩ := gen_shape _ _ _ _ _ h
    exact pad4_isFourDigitCode (hs s hsmem)
  · intro e hemem hcon
    unfold generateUniqueRoomCode at h
    split at h
    · exact absurd h (by simp)
    · rename_i c0 a0 r0 hg
      split at h
      · split at h
        · exact absurd h (by simp)
        · rename_i hfb
          simp only [Option.some.injEq, Prod.mk.injEq] at h
          obtain ⟨rfl, -, -⟩ := h
          obtain ⟨-, hnone⟩ := fallbackLoop_shape _ _ _ _ hfb
          have hany : (runActions initState acts).rooms.any (fun x => x.1 == e.1) = true :=
            List.any_eq_true.mpr ⟨e, hemem, by simp⟩
          rw [hcon] at hany
          rw [hnone] at hany
          exact absurd hany (by simp)
      · rename_i hlt
        simp only [Option.some.injEq, Prod.mk.injEq] at h
        obtain ⟨rfl, -, -⟩ := h
        have hfresh := genLoop_fresh _ _ _ _ _ _ hg (by omega)
        have hcont := roomsSubUsed_run acts e hemem
        rw [hcon] at hcont
        rw [hfresh] at hcont
        exact absurd hcont (by simp)
  · rw [gen_state _ _ _ _ _ h]
    exact contains_addUsedCode_self _ _
  · intro a r0 hgl hlt
    exact genLoop_fresh _ _ _ _ _ _ hgl hlt

/-- Witness for C3 (amended): allocation from the empty initial state with sample 7
returns "0007", fresh and recorded. -/
theorem c3_allocator_amended_witness :
    isFourDigitCode "0007" = true ∧
    (∀ e ∈ (runActions initState []).rooms, e.1 ≠ "0007") ∧
    ({ rooms := []
       usedCodes := ["0007"]
       userSessions := []
       usernameSessions := []
       socks := [] } : ServerState).usedCodes.contains "0007" = true ∧
    (∀ a r0, genLoop [7] 0 (runActions initState []).usedCodes = some ("0007", a, r0) →
      a < 100 → (runActions initState []).usedCodes.contains "0007" = false) :=
  c3_allocator_amended [] [7] "0007" _ [] (by decide) rfl

/-! ### The expiry sweep -/

lemma sweepStep_socks (now : Nat) (acc : Res) (e : String × Room) :
    (sweepStep now acc e).st.socks = acc.st.socks := by
  unfold sweepStep
  split <;> rfl

lemma sweep_fold_out_mono (now : Nat) :
    ∀ (l : List (String × Room)) (acc : Res) (x : String × Ev), x ∈ acc.out →
      x ∈ (l.foldl (sweepStep now) acc).out := by
  intro l
  induction l with
  | nil => intro acc x hx; exact hx
  | cons e es ih =>
    intro acc x hx
    rw [List.foldl_cons]
    apply ih
    show x ∈ (sweepStep now acc e).out
    unfold sweepStep
    split
    · exact List.mem_append_left _ hx
    · exact hx

lemma sweep_fold_rooms_sub (now : Nat) :
    ∀ (l : List (String × Room)) (acc : Res) (x : String × Room),
      x ∈ (l.foldl (sweepStep now) acc).st.rooms → x ∈ acc.st.rooms := by
  intro l
  induction l with
  | nil => intro acc x hx; exact hx
  | cons e es ih =>
    intro acc x hx
    rw [List.foldl_cons] at hx
    have hx' := ih _ _ hx
    revert hx'
    show x ∈ (sweepStep now acc e).st.rooms → x ∈ acc.st.rooms
    unfold sweepStep
    split
    · intro hm
      exact (List.mem_filter.mp hm).1
    · intro hm
      exact hm

lemma sweep_fold_used_sub (now : Nat) :
    ∀ (l : List (String × Room)) (acc : Res) (k : String),
      k ∈ (l.foldl (sweepStep now) acc).st.usedCodes → k ∈ acc.st.usedCodes := by
  intro l
  induction l with
  | nil => intro acc k hk; exact hk
  | cons e es ih =>
    intro acc k hk
    rw [List.foldl_cons] at hk
    have hk' := ih _ _ hk
    revert hk'
    show k ∈ (sweepStep now acc e).st.usedCodes → k ∈ acc.st.usedCodes
    unfold sweepStep
    split
    · intro hm
      exact (List.mem_filter.mp hm).1
    · intro hm
      exact hm

lemma sweep_fold_expired (now : Nat) :
    ∀ (l : List (String × Room)) (acc : Res) (c : String) (room : Room),
      (c, room) ∈ l → room.expiresAt < now →
      (∀ e ∈ (l.foldl (sweepStep now) acc).st.rooms, e.1 ≠ c) ∧
      c ∉ (l.foldl (sweepStep now) acc).st.usedCodes ∧
      (∀ y ∈ ioTo acc.st c Ev.roomExpired, y ∈ (l.foldl (sweepStep now) acc).out) := by
  intro l
  induction l with
  | nil => intro acc c room h; simp at h
  | cons e es ih =>
    intro acc c room hmem hexp
    rw [List.foldl_cons]
    rcases List.mem_cons.mp hmem with heq | htail
    · have hstep : sweepStep now acc e =
          { st := delUsedCode (delRoom acc.st c) c
            out := acc.out ++ ioTo acc.st c Ev.roomExpired } := by
        unfold sweepStep
        rw [← heq]
        rw [if_pos hexp]
      rw [hstep]
      refine ⟨?_, ?_, ?_⟩
      · intro x hx hc
        have hx' := sweep_fold_rooms_sub now es _ x hx
        have hf := (List.mem_filter.mp hx').2
        rw [hc] at hf
        simp at hf
      · intro hk
        have hk' := sweep_fold_used_sub now es _ c hk
        have hf := (List.mem_filter.mp hk').2
        simp at hf
      · intro y hy
        apply sweep_fold_out_mono
        exact List.mem_append_right _ hy
    · have hmain := ih (sweepStep now acc e) c room htail hexp
      refine ⟨hmain.1, hmain.2.1, ?_⟩
      intro y hy
      apply hmain.2.2
      rw [ioTo_socks_congr (sweepStep_socks now acc e)]
      exact hy

/-- C6: on a sweeper tick, every active room whose expiry deadline has passed is removed
from the room store, its code is removed from the used-code set, and a roomExpired event
is delivered to every current participant whose socket is a member of the room's
broadcast group — with no condition on the number of participants. -/
theorem c6_sweep_notifies_and_destroys (st : ServerState) (now : Nat) (c : String)
    (room : Room) (hmem : (c, room) ∈ st.rooms) (hexp : room.expiresAt < now) :
    (∀ e ∈ (sweepH st now).st.rooms, e.1 ≠ c) ∧
    c ∉ (sweepH st now).st.usedCodes ∧
    (∀ u ∈ room.users, ∀ ss : SockState, (u.socketId, ss) ∈ st.socks →
      ss.joined.contains c = true → (u.socketId, Ev.roomExpired) ∈ (sweepH st now).out) := by
  have hmain := sweep_fold_expired now st.rooms { st := st, out := [] } c room hmem hexp
  refine ⟨hmain.1, hmain.2.1, ?_⟩
  intro u hu ss hss hjoin
  apply hmain.2.2
  unfold ioTo
  exact List.mem_map.mpr ⟨(u.socketId, ss), List.mem_filter.mpr ⟨hss, hjoin⟩, rfl⟩

/-- The two-participant room used in the sweep witness. -/
def c6room : Room :=
  { users := [{ socketId := "a", username := "A", joinedAt := 0 },
      { socketId := "b", username := "B", joinedAt := 1 }]
    messages := []
    createdAt := 0
    expiresAt := 600001
    lastActivity := 1
    inVoiceChat := false }

/-- Witness for C6: a concrete 2-participant room past its deadline is destroyed by the
sweep and both participants are notified. -/
theorem c6_sweep_notifies_and_destroys_witness :
    (∀ e ∈ (sweepH (runActions initState [Act.createA "a" (some "A") [9] 0 0,
        Act.joinA "b" "0009" (some "B") 0 1]) 700000).st.rooms, e.1 ≠ "0009") ∧
    "0009" ∉ (sweepH (runActions initState [Act.createA "a" (some "A") [9] 0 0,
        Act.joinA "b" "0009" (some "B") 0 1]) 700000).st.usedCodes ∧
    (∀ u ∈ c6room.users, ∀ ss : SockState,
      (u.socketId, ss) ∈ (runActions initState [Act.createA "a" (some "A") [9] 0 0,
        Act.joinA "b" "0009" (some "B") 0 1]).socks →
      ss.joined.contains "0009" = true →
      (u.socketId, Ev.roomExpired) ∈ (sweepH (runActions initState
        [Act.createA "a" (some "A") [9] 0 0, Act.joinA "b" "0009" (some "B") 0 1])
        700000).out) :=
  c6_sweep_notifies_and_destroys _ 700000 "0009" c6room (by decide) (by decide)

/-- C4: when the last participant leaves or disconnects, or an expired room is swept,
the room disappears from the room store (discarding its message history — the handlers
even clear `messages` just before deleting) and its code leaves the used-code set; and
every createRoom installs a room whose message history is empty, so a recreated room
with the same code starts with zero messages. -/
theorem c4_destroy_clears_history :
    (∀ (st : ServerState) (sid rc : String) (room : Room) (user : ChatUser),
      (getSock st sid).roomCode = some rc → findRoom st rc = some room →
      spliceFirst (fun u => u.socketId == sid) room.users = some (user, []) →
      (∀ e ∈ (leaveRoomH st sid).st.rooms, e.1 ≠ rc) ∧
      rc ∉ (leaveRoomH st sid).st.usedCodes) ∧
    (∀ (st : ServerState) (sid rc : String) (room : Room) (user : ChatUser),
      (getSock st sid).roomCode = some rc → findRoom st rc = some room →
      spliceFirst (fun u => u.socketId == sid) room.users = some (user, []) →
      (∀ e ∈ (disconnectH st sid).st.rooms, e.1 ≠ rc) ∧
      rc ∉ (disconnectH st sid).st.usedCodes) ∧
    (∀ (st : ServerState) (now : Nat) (c : String) (room : Room),
      (c, room) ∈ st.rooms → room.expiresAt < now →
      (∀ e ∈ (sweepH st now).st.rooms, e.1 ≠ c) ∧
      c ∉ (sweepH st now).st.usedCodes) ∧
    (∀ (st : ServerState) (sid : String) (u : Option String) (samples : List Nat)
      (r now : Nat) (code : String) (st1 : ServerState) (rest : List Nat),
      generateUniqueRoomCode st samples = some (code, st1, rest) →
      ((createRoom st sid u samples r now).map
        (fun res => (findRoom res.st code).map Room.messages)) = some (some [])) := by
  refine ⟨?_, ?_, ?_, ?_⟩
  · intro st sid rc room user hrc hroom hsplice
    rw [leaveRoom_eval_last hrc hroom hsplice]
    dsimp only
    constructor
    · intro e he hc
      have hf := (List.mem_filter.mp he).2
      rw [hc] at hf
      simp at hf
    · intro hk
      have hf := (List.mem_filter.mp hk).2
      simp at hf
  · intro st sid rc room user hrc hroom hsplice
    unfold disconnectH
    rw [hrc]
    dsimp only
    rw [hroom]
    dsimp only
    rw [hsplice]
    dsimp only
    constructor
    · intro e he hc
      have hf := (List.mem_filter.mp he).2
      rw [hc] at hf
      simp at hf
    · intro hk
      have hf := (List.mem_filter.mp hk).2
      simp at hf
  · intro st now c room hmem hexp
    have hmain := sweep_fold_expired now st.rooms { st := st, out := [] } c room hmem hexp
    exact ⟨hmain.1, hmain.2.1⟩
  · intro st sid u samples r now code st1 rest hg
    unfold createRoom
    rw [hg]
    dsimp only [Option.map_some']
    rw [findRoom_setSock, findRoom_setRoom]
    rfl

/-- The single-participant room used in the destruction witness. -/
def c4room : Room :=
  { users := [{ socketId := "a", username := "A", joinedAt := 0 }]
    messages := []
    createdAt := 0
    expiresAt := 600000
    lastActivity := 0
    inVoiceChat := false }

/-- Witness for C4: concrete last-leave, last-disconnect, sweep and recreation cases. -/
theorem c4_destroy_clears_history_witness :
    ((∀ e ∈ (leaveRoomH (runActions initState [Act.createA "a" (some "A") [3] 0 0])
        "a").st.rooms, e.1 ≠ "0003") ∧
      "0003" ∉ (leaveRoomH (runActions initState [Act.createA "a" (some "A") [3] 0 0])
        "a").st.usedCodes) ∧
    ((∀ e ∈ (disconnectH (runActions initState [Act.createA "a" (some "A") [3] 0 0])
        "a").st.rooms, e.1 ≠ "0003") ∧
      "0003" ∉ (disconnectH (runActions initState [Act.createA "a" (some "A") [3] 0 0])
        "a").st.usedCodes) ∧
    ((∀ e ∈ (sweepH (runActions initState [Act.createA "a" (some "A") [3] 0 0])
        700000).st.rooms, e.1 ≠ "0003") ∧
      "0003" ∉ (sweepH (runActions initState [Act.createA "a" (some "A") [3] 0 0])
        700000).st.usedCodes) ∧
    ((createRoom initState "a" (some "A") [3] 0 0).map
      (fun res => (findRoom res.st "0003").map Room.messages)) = some (some []) :=
  ⟨c4_destroy_clears_history.1 _ "a" "0003" c4room
      { socketId := "a", username := "A", joinedAt := 0 } rfl rfl rfl,
   c4_destroy_clears_history.2.1 _ "a" "0003" c4room
      { socketId := "a", username := "A", joinedAt := 0 } rfl rfl rfl,
   c4_destroy_clears_history.2.2.1 _ 700000 "0003" c4room (by decide) (by decide),
   c4_destroy_clears_history.2.2.2 initState "a" (some "A") [3] 0 0 "0003" _ [] rfl⟩

/-! ### Message broadcast facts -/

lemma count_pair_map (l : List (String × SockState)) (x : String) (ev : Ev) :
    ((l.map (fun e => (e.1, ev))).count (x, ev)) = ((l.map Prod.fst).count x) := by
  induction l with
  | nil => rfl
  | cons e es ih =>
    simp only [List.map_cons, List.count_cons, ih]
    congr 1
    by_cases hx : e.1 = x
    · simp [hx]
    · simp [hx, Prod.ext_iff]

lemma nodup_keys_of_filter {l : List (String × SockState)} (p : String × SockState → Bool)
    (h : (l.map Prod.fst).Nodup) : ((l.filter p).map Prod.fst).Nodup :=
  List.Sublist.nodup (List.Sublist.map _ (List.filter_sublist l)) h

lemma ioTo_count_one {st : ServerState} {rc x : String} {ev : Ev}
    (hnodup : (st.socks.map Prod.fst).Nodup)
    (hmem : ∃ ss : SockState, (x, ss) ∈ st.socks ∧ ss.joined.contains rc = true) :
    (ioTo st rc ev).count (x, ev) = 1 := by
  unfold ioTo
  rw [count_pair_map]
  apply List.count_eq_one_of_mem
  · exact nodup_keys_of_filter _ hnodup
  · obtain ⟨ss, hss, hj⟩ := hmem
    exact List.mem_map.mpr ⟨(x, ss), List.mem_filter.mpr ⟨hss, hj⟩, rfl⟩

/-- C5: a sendMessage by a participant of a room trims the text, appends the message to
the room's history, resets the room's expiry deadline to now + TTL, and emits the
newMessage event (carrying the sender's display name and the trimmed text) to the
members of the room's broadcast group, each member — the sender included, being a
participant — receiving it exactly once. -/
theorem c5_sendMessage_echo (st : ServerState) (sid text : String) (idRnd now : Nat)
    (rc : String) (room : Room) (user : ChatUser)
    (hrc : (getSock st sid).roomCode = some rc)
    (hroom : findRoom st rc = some room)
    (huser : room.users.find? (fun u => u.socketId == sid) = some user)
    (hnodup : (st.socks.map Prod.fst).Nodup) :
    let msg : ChatMessage :=
      { id := now + idRnd
        username := user.username
        message := text.trim
        timestamp := now
        socketId := sid }
    ((sendMessage st sid (some text) idRnd now).map (fun res =>
      ((findRoom res.st rc).map Room.messages, (findRoom res.st rc).map Room.expiresAt,
        res.out))) =
      some (some (room.messages ++ [msg]), some (now + ROOM_EXPIRY_TIME),
        ioTo st rc (Ev.newMessage msg)) ∧
    user ∈ room.users ∧ user.socketId = sid ∧
    (∀ u' ∈ room.users, ∀ ss : SockState, (u'.socketId, ss) ∈ st.socks →
      ss.joined.contains rc = true →
      (ioTo st rc (Ev.newMessage msg)).count (u'.socketId, Ev.newMessage msg) = 1) := by
  refine ⟨?_, List.mem_of_find?_eq_some huser, ?_, ?_⟩
  · rw [@sendMessage_eval_success st sid text idRnd now rc room user hrc hroom huser]
    simp only [Option.map_some', findRoom_setRoom]
    rw [ioTo_socks_congr (setRoom_socks st rc _)]
  · have hp := List.find?_some huser
    simpa using hp
  · intro u' hu' ss hss hj
    exact ioTo_count_one hnodup ⟨ss, hss, hj⟩

/-- The two-participant room used in the echo witness. -/
def c5room : Room :=
  { users := [{ socketId := "a", username := "A", joinedAt := 0 },
      { socketId := "b", username := "B", joinedAt := 1 }]
    messages := []
    createdAt := 0
    expiresAt := 600001
    lastActivity := 1
    inVoiceChat := false }

/-- Witness for C5: in a concrete room with participants "a" and "B", "a" sends " hi ";
the trimmed message is appended, the expiry is reset, and both members receive exactly
one newMessage. -/
theorem c5_sendMessage_echo_witness :
    let msg : ChatMessage :=
      { id := 50 + 7
        username := "A"
        message := " hi ".trim
        timestamp := 50
        socketId := "a" }
    ((sendMessage (runActions initState [Act.createA "a" (some "A") [1] 0 0,
        Act.joinA "b" "0001" (some "B") 0 1]) "a" (some " hi ") 7 50).map (fun res =>
      ((findRoom res.st "0001").map Room.messages, (findRoom res.st "0001").map Room.expiresAt,
        res.out))) =
      some (some (c5room.messages ++ [msg]), some (50 + ROOM_EXPIRY_TIME),
        ioTo (runActions initState [Act.createA "a" (some "A") [1] 0 0,
          Act.joinA "b" "0001" (some "B") 0 1]) "0001" (Ev.newMessage msg)) ∧
    ({ socketId := "a", username := "A", joinedAt := 0 } : ChatUser) ∈ c5room.users ∧
    ({ socketId := "a", username := "A", joinedAt := 0 } : ChatUser).socketId = "a" ∧
    (∀ u' ∈ c5room.users, ∀ ss : SockState,
      (u'.socketId, ss) ∈ (runActions initState [Act.createA "a" (some "A") [1] 0 0,
        Act.joinA "b" "0001" (some "B") 0 1]).socks →
      ss.joined.contains "0001" = true →
      (ioTo (runActions initState [Act.createA "a" (some "A") [1] 0 0,
        Act.joinA "b" "0001" (some "B") 0 1]) "0001" (Ev.newMessage msg)).count
        (u'.socketId, Ev.newMessage msg) = 1) :=
  c5_sendMessage_echo _ "a" " hi " 7 50 "0001" c5room
    { socketId := "a", username := "A", joinedAt := 0 } rfl rfl rfl (by decide)

lemma findRoom_sessionsF (st : ServerState) (us uns : List String) (c : String) :
    findRoom { st with userSessions := us, usernameSessions := uns } c = findRoom st c := rfl

/-- C7 counterexample: a typing operation by a participant of an active room leaves the
whole server state — in particular the room's expiry deadline — unchanged, so a typing
operation performed (say) 30000 ms into the room's life does not reset the deadline to
now + TTL. -/
theorem c7_typing_no_reset_cex :
    (typingH (runActions initState [Act.createA "a" (some "A") [1] 0 0]) "a" "A" true).st =
      runActions initState [Act.createA "a" (some "A") [1] 0 0] ∧
    ((findRoom (runActions initState [Act.createA "a" (some "A") [1] 0 0]) "0001").map
      Room.expiresAt) = some 600000 ∧
    (600000 : Nat) ≠ 30000 + 600000 := by
  decide

/-- C7 (amended): a successful join and a successful sendMessage reset the room's expiry
deadline to now + TTL; typing, leaveRoom (for the room that remains), and the five
signaling operations do not modify any expiry deadline. -/
theorem c7_expiry_reset_amended :
    (∀ (st : ServerState) (sid code : String) (username : Option String) (nameRnd now : Nat)
      (room : Room), isFourDigitCode code = true → findRoom st code = some room →
      ¬ 2 ≤ room.users.length → (room.users.any fun u => u.socketId == sid) = false →
      (st.userSessions.contains (sid ++ "-" ++ code) ||
        st.usernameSessions.contains (jsOr username "anonymous" ++ "-" ++ code)) = false →
      ((findRoom (joinRoom st sid code username nameRnd now).st code).map Room.expiresAt) =
        some (now + ROOM_EXPIRY_TIME)) ∧
    (∀ (st : ServerState) (sid text : String) (idRnd now : Nat) (rc : String) (room : Room)
      (user : ChatUser), (getSock st sid).roomCode = some rc → findRoom st rc = some room →
      room.users.find? (fun u => u.socketId == sid) = some user →
      ((sendMessage st sid (some text) idRnd now).map
        (fun res => (findRoom res.st rc).map Room.expiresAt)) =
        some (some (now + ROOM_EXPIRY_TIME))) ∧
    (∀ (st : ServerState) (sid username : String) (b : Bool),
      (typingH st sid username b).st = st) ∧
    (∀ (st : ServerState) (sid rc : String) (room : Room) (user : ChatUser)
      (rest : List ChatUser), (getSock st sid).roomCode = some rc →
      findRoom st rc = some room →
      spliceFirst (fun u => u.socketId == sid) room.users = some (user, rest) →
      rest.length ≠ 0 →
      ((findRoom (leaveRoomH st sid).st rc).map Room.expiresAt) = some room.expiresAt) ∧
    (∀ (st : ServerState) (sid p : String), (voiceChatOfferH st sid p).st = st) ∧
    (∀ (st : ServerState) (sid p : String), (voiceChatAnswerH st sid p).st = st) ∧
    (∀ (st : ServerState) (sid p : String), (iceCandidateH st sid p).st = st) ∧
    (∀ (st : ServerState) (sid rc : String) (room : Room),
      (getSock st sid).roomCode = some rc → findRoom st rc = some room →
      ((findRoom (startVoiceChatH st sid).st rc).map Room.expiresAt) =
        some room.expiresAt) ∧
    (∀ (st : ServerState) (sid rc : String) (room : Room),
      (getSock st sid).roomCode = some rc → findRoom st rc = some room →
      ((findRoom (endVoiceChatH st sid).st rc).map Room.expiresAt) =
        some room.expiresAt) := by
  refine ⟨?_, ?_, typingH_st, ?_, voiceChatOfferH_st, voiceChatAnswerH_st,
    iceCandidateH_st, ?_, ?_⟩
  · intro st sid code username nameRnd now room h4 hroom hfull hany hses
    rw [joinRoom_eval_success h4 hroom hfull hany hses]
    dsimp only
    rw [findRoom_setSock, findRoom_setRoom]
    rfl
  · intro st sid text idRnd now rc room user hrc hroom huser
    rw [@sendMessage_eval_success st sid text idRnd now rc room user hrc hroom huser]
    simp only [Option.map_some', findRoom_setRoom]
  · intro st sid rc room user rest hrc hroom hsplice hne
    rw [leaveRoom_eval_keep hrc hroom hsplice hne]
    dsimp only
    rw [findRoom_sessionsF, findRoom_setSock, findRoom_setRoom]
    rfl
  · intro st sid rc room hrc hroom
    rw [startVoice_eval_active hrc hroom]
    dsimp only
    rw [findRoom_setRoom]
    rfl
  · intro st sid rc room hrc hroom
    rw [endVoice_eval_active hrc hroom]
    dsimp only
    rw [findRoom_setRoom]
    rfl

/-- The one-participant room used in the expiry-reset witness. -/
def c7room : Room :=
  { users := [{ socketId := "a", username := "A", joinedAt := 0 }]
    messages := []
    createdAt := 0
    expiresAt := 600000
    lastActivity := 0
    inVoiceChat := false }

/-- The two-participant room used in the expiry-reset witness. -/
def c7room2 : Room :=
  { users := [{ socketId := "a", username := "A", joinedAt := 0 },
      { socketId := "b", username := "B", joinedAt := 1 }]
    messages := []
    createdAt := 0
    expiresAt := 600001
    lastActivity := 1
    inVoiceChat := false }

/-- Witness for C7 (amended): concrete join/send resets; concrete typing, leave and
signaling operations leave the deadline untouched. -/
theorem c7_expiry_reset_amended_witness :
    ((findRoom (joinRoom (runActions initState [Act.createA "a" (some "A") [1] 0 0])
        "b" "0001" (some "B") 0 5).st "0001").map Room.expiresAt) =
      some (5 + ROOM_EXPIRY_TIME) ∧
    ((sendMessage (runActions initState [Act.createA "a" (some "A") [1] 0 0,
        Act.joinA "b" "0001" (some "B") 0 1]) "a" (some "x") 3 9).map
      (fun res => (findRoom res.st "0001").map Room.expiresAt)) =
        some (some (9 + ROOM_EXPIRY_TIME)) ∧
    (typingH (runActions initState [Act.createA "a" (some "A") [1] 0 0]) "a" "A" true).st =
      runActions initState [Act.createA "a" (some "A") [1] 0 0] ∧
    ((findRoom (leaveRoomH (runActions initState [Act.createA "a" (some "A") [1] 0 0,
        Act.joinA "b" "0001" (some "B") 0 1]) "b").st "0001").map Room.expiresAt) =
      some c7room2.expiresAt ∧
    (voiceChatOfferH (runActions initState [Act.createA "a" (some "A") [1] 0 0])
      "a" "p").st = runActions initState [Act.createA "a" (some "A") [1] 0 0] ∧
    (voiceChatAnswerH (runActions initState [Act.createA "a" (some "A") [1] 0 0])
      "a" "p").st = runActions initState [Act.createA "a" (some "A") [1] 0 0] ∧
    (iceCandidateH (runActions initState [Act.createA "a" (some "A") [1] 0 0])
      "a" "p").st = runActions initState [Act.createA "a" (some "A") [1] 0 0] ∧
    ((findRoom (startVoiceChatH (runActions initState [Act.createA "a" (some "A") [1] 0 0])
        "a").st "0001").map Room.expiresAt) = some c7room.expiresAt ∧
    ((findRoom (endVoiceChatH (runActions initState [Act.createA "a" (some "A") [1] 0 0])
        "a").st "0001").map Room.expiresAt) = some c7room.expiresAt := by
  obtain ⟨h1, h2, h3, h4, h5, h6, h7, h8, h9⟩ := c7_expiry_reset_amended
  refine ⟨h1 _ "b" "0001" (some "B") 0 5 c7room (by decide) rfl (by decide) (by decide)
      (by decide),
    h2 _ "a" "x" 3 9 "0001" c7room2 { socketId := "a", username := "A", joinedAt := 0 }
      rfl rfl rfl,
    h3 _ "a" "A" true,
    h4 _ "b" "0001" c7room2 { socketId := "b", username := "B", joinedAt := 1 }
      [{ socketId := "a", username := "A", joinedAt := 0 }] rfl rfl rfl (by decide),
    h5 _ "a" "p", h6 _ "a" "p", h7 _ "a" "p",
    h8 _ "a" "0001" c7room rfl rfl,
    h9 _ "a" "0001" c7room rfl rfl⟩

lemma hasRoom_false_findRoom {st : ServerState} {rc : String}
    (h : hasRoom st rc = false) : findRoom st rc = none := by
  unfold findRoom
  have hn : st.rooms.find? (fun e => e.1 == rc) = none := by
    rw [List.find?_eq_none]
    intro x hx hpx
    unfold hasRoom at h
    rw [List.any_eq_true.mpr ⟨x, hx, hpx⟩] at h
    exact absurd h (by simp)
  rw [hn]
  rfl

/-- C8 counterexample: "a" created room "0000", the room expired and was swept, and a
second connection "b" created a fresh room that reuses code "0000".  The stale room tag
of "a" passes the relay guard, so "a"'s voiceChatOffer is forwarded to "b" although "a"
is not a participant of the active room "0000". -/
theorem c8_relay_stale_tag_cex :
    (voiceChatOfferH (runActions initState [Act.createA "a" (some "A") [0] 0 0,
        Act.sweepA 700000, Act.createA "b" (some "B") [0] 0 700000]) "a" "p1").out =
      [("b", Ev.voiceChatOffer "p1")] ∧
    ((findRoom (runActions initState [Act.createA "a" (some "A") [0] 0 0,
        Act.sweepA 700000, Act.createA "b" (some "B") [0] 0 700000]) "0000").map
      (fun r => r.users.any (fun u => u.socketId == "a"))) = some false := by
  decide

/-- C8 (amended): each signaling relay forwards its payload unmodified to the other
members of the room's broadcast group — never back to the sender, never into the message
history — whenever the caller's room tag names an active room (a participant check is
not performed: a stale tag left by expiry and code reuse still relays); with no room tag
or an inactive room nothing is forwarded and the state is unchanged. -/
theorem c8_signaling_relay_amended :
    (∀ (st : ServerState) (sid p rc : String), (getSock st sid).roomCode = some rc →
      hasRoom st rc = true →
      voiceChatOfferH st sid p = { st := st, out := sockTo st sid rc (Ev.voiceChatOffer p) } ∧
      ∀ x ∈ sockTo st sid rc (Ev.voiceChatOffer p), x.1 ≠ sid ∧ x.2 = Ev.voiceChatOffer p) ∧
    (∀ (st : ServerState) (sid p rc : String), (getSock st sid).roomCode = some rc →
      hasRoom st rc = true →
      voiceChatAnswerH st sid p =
        { st := st, out := sockTo st sid rc (Ev.voiceChatAnswer p) } ∧
      ∀ x ∈ sockTo st sid rc (Ev.voiceChatAnswer p), x.1 ≠ sid ∧ x.2 = Ev.voiceChatAnswer p) ∧
    (∀ (st : ServerState) (sid p rc : String), (getSock st sid).roomCode = some rc →
      hasRoom st rc = true →
      iceCandidateH st sid p = { st := st, out := sockTo st sid rc (Ev.iceCandidate p) } ∧
      ∀ x ∈ sockTo st sid rc (Ev.iceCandidate p), x.1 ≠ sid ∧ x.2 = Ev.iceCandidate p) ∧
    (∀ (st : ServerState) (sid rc : String) (room : Room),
      (getSock st sid).roomCode = some rc → findRoom st rc = some room →
      ((findRoom (startVoiceChatH st sid).st rc).map Room.messages) = some room.messages ∧
      (startVoiceChatH st sid).out = sockTo st sid rc Ev.voiceChatStarted ∧
      ∀ x ∈ (startVoiceChatH st sid).out, x.1 ≠ sid) ∧
    (∀ (st : ServerState) (sid rc : String) (room : Room),
      (getSock st sid).roomCode = some rc → findRoom st rc = some room →
      ((findRoom (endVoiceChatH st sid).st rc).map Room.messages) = some room.messages ∧
      (endVoiceChatH st sid).out = sockTo st sid rc Ev.voiceChatEnded ∧
      ∀ x ∈ (endVoiceChatH st sid).out, x.1 ≠ sid) ∧
    (∀ (st : ServerState) (sid p : String), (getSock st sid).roomCode = none →
      voiceChatOfferH st sid p = { st := st, out := [] } ∧
      voiceChatAnswerH st sid p = { st := st, out := [] } ∧
      iceCandidateH st sid p = { st := st, out := [] } ∧
      startVoiceChatH st sid = { st := st, out := [] } ∧
      endVoiceChatH st sid = { st := st, out := [] }) ∧
    (∀ (st : ServerState) (sid p rc : String), (getSock st sid).roomCode = some rc →
      hasRoom st rc = false →
      voiceChatOfferH st sid p = { st := st, out := [] } ∧
      voiceChatAnswerH st sid p = { st := st, out := [] } ∧
      iceCandidateH st sid p = { st := st, out := [] } ∧
      startVoiceChatH st sid = { st := st, out := [] } ∧
      endVoiceChatH st sid = { st := st, out := [] }) := by
  refine ⟨?_, ?_, ?_, ?_, ?_, ?_, ?_⟩
  · intro st sid p rc hrc hhas
    exact ⟨voiceOffer_eval_active hrc hhas, sockTo_not_self⟩
  · intro st sid p rc hrc hhas
    exact ⟨voiceAnswer_eval_active hrc hhas, sockTo_not_self⟩
  · intro st sid p rc hrc hhas
    exact ⟨iceCandidate_eval_active hrc hhas, sockTo_not_self⟩
  · intro st sid rc room hrc hroom
    rw [startVoice_eval_active hrc hroom]
    refine ⟨?_, ?_, ?_⟩
    · rw [findRoom_setRoom]
      rfl
    · exact sockTo_socks_congr (setRoom_socks _ _ _)
    · intro x hx
      exact (sockTo_not_self x hx).1
  · intro st sid rc room hrc hroom
    rw [endVoice_eval_active hrc hroom]
    refine ⟨?_, ?_, ?_⟩
    · rw [findRoom_setRoom]
      rfl
    · exact sockTo_socks_congr (setRoom_socks _ _ _)
    · intro x hx
      exact (sockTo_not_self x hx).1
  · intro st sid p hrc
    refine ⟨voiceOffer_eval_none hrc, ?_, ?_, ?_, ?_⟩ <;>
      · first
        | (unfold voiceChatAnswerH; rw [hrc])
        | (unfold iceCandidateH; rw [hrc])
        | (unfold startVoiceChatH; rw [hrc])
        | (unfold endVoiceChatH; rw [hrc])
  · intro st sid p rc hrc hhas
    have hfr : findRoom st rc = none := hasRoom_false_findRoom hhas
    refine ⟨voiceOffer_eval_stale hrc hhas, ?_, ?_, ?_, ?_⟩
    · unfold voiceChatAnswerH
      rw [hrc]
      dsimp only
      simp only [hhas, Bool.false_eq_true, if_false]
    · unfold iceCandidateH
      rw [hrc]
      dsimp only
      simp only [hhas, Bool.false_eq_true, if_false]
    · unfold startVoiceChatH
      rw [hrc]
      dsimp only
      rw [hfr]
    · unfold endVoiceChatH
      rw [hrc]
      dsimp only
      rw [hfr]

/-- The room used in the relay witness. -/
def c8room : Room :=
  { users := [{ socketId := "a", username := "A", joinedAt := 0 }]
    messages := []
    createdAt := 0
    expiresAt := 600000
    lastActivity := 0
    inVoiceChat := false }

/-- Witness for C8 (amended): concrete relays with an active tag, a missing tag, and a
stale tag. -/
theorem c8_signaling_relay_amended_witness :
    (voiceChatOfferH (runActions initState [Act.createA "a" (some "A") [1] 0 0])
        "a" "p" =
      { st := runActions initState [Act.createA "a" (some "A") [1] 0 0]
        out := sockTo (runActions initState [Act.createA "a" (some "A") [1] 0 0])
          "a" "0001" (Ev.voiceChatOffer "p") } ∧
      ∀ x ∈ sockTo (runActions initState [Act.createA "a" (some "A") [1] 0 0])
        "a" "0001" (Ev.voiceChatOffer "p"), x.1 ≠ "a" ∧ x.2 = Ev.voiceChatOffer "p") ∧
    ((findRoom (startVoiceChatH (runActions initState [Act.createA "a" (some "A") [1] 0 0])
        "a").st "0001").map Room.messages) = some c8room.messages ∧
    (voiceChatAnswerH (runActions initState [Act.createA "a" (some "A") [1] 0 0])
      "z" "p") =
      { st := runActions initState [Act.createA "a" (some "A") [1] 0 0]
        out := [] } ∧
    (voiceChatOfferH (runActions initState [Act.createA "a" (some "A") [0] 0 0,
        Act.sweepA 700000]) "a" "p") =
      { st := runActions initState [Act.createA "a" (some "A") [0] 0 0, Act.sweepA 700000]
        out := [] } :=
  ⟨c8_signaling_relay_amended.1 (runActions initState [Act.createA "a" (some "A") [1] 0 0])
      "a" "p" "0001" rfl (by decide),
   (c8_signaling_relay_amended.2.2.2.1
      (runActions initState [Act.createA "a" (some "A") [1] 0 0]) "a" "0001" c8room
      rfl rfl).1,
   (c8_signaling_relay_amended.2.2.2.2.2.1
      (runActions initState [Act.createA "a" (some "A") [1] 0 0]) "z" "p" rfl).2.1,
   (c8_signaling_relay_amended.2.2.2.2.2.2
      (runActions initState [Act.createA "a" (some "A") [0] 0 0, Act.sweepA 700000])
      "a" "p" "0000" rfl (by decide)).1⟩

/-! ### The anonymous-name ledger key -/

lemma spliceFirst_append_last {p : ChatUser → Bool} :
    ∀ (l : List ChatUser) (u : ChatUser), (∀ x ∈ l, p x = false) → p u = true →
      spliceFirst p (l ++ [u]) = some (u, l) := by
  intro l
  induction l with
  | nil =>
    intro u _ hu
    simp only [List.nil_append, spliceFirst, hu, if_true]
  | cons x xs ih =>
    intro u hl hu
    have hx : p x = false := hl x (List.mem_cons_self _ _)
    simp only [List.cons_append, spliceFirst, hx, Bool.false_eq_true, if_false,
      List.append_eq]
    rw [ih u (fun y hy => hl y (List.mem_cons_of_mem _ hy)) hu]
    rfl

lemma contains_addKey_of_ne (l : List String) (k x : String) (hne : x ≠ k)
    (h : l.contains x = false) : (addKey l k).contains x = false := by
  unfold addKey
  split
  · exact h
  · cases hc : (l ++ [k]).contains x with
    | false => rfl
    | true =>
      rw [contains_iff_mem] at hc
      rcases List.mem_append.mp hc with h1 | h2
      · have := (contains_iff_mem l x).mpr h1
        rw [h] at this
        exact absurd this (by simp)
      · exact absurd (List.mem_singleton.mp h2) hne

lemma userKey_ne_anonymousKey (t c : String) :
    ("User" ++ t) ++ "-" ++ c ≠ "anonymous" ++ "-" ++ c := by
  intro h
  have hd : (some 'U' : Option Char) = some 'a' :=
    congrArg (fun s : String => s.data.head?) h
  exact absurd hd (by decide)

lemma single_error_ne {sid' m1 m2 : String} (h : m1 ≠ m2) :
    ([(sid', Ev.errorEv m1)] : List (String × Ev)) ≠ [(sid', Ev.errorEv m2)] := by
  intro hcon
  simp only [List.cons.injEq, Prod.mk.injEq, Ev.errorEv.injEq, and_true] at hcon
  exact h hcon.2

@[simp] lemma delRoom_userSessions (st : ServerState) (c : String) :
    (delRoom st c).userSessions = st.userSessions := rfl

@[simp] lemma delRoom_usernameSessions (st : ServerState) (c : String) :
    (delRoom st c).usernameSessions = st.usernameSessions := rfl

@[simp] lemma delUsedCode_userSessions (st : ServerState) (c : String) :
    (delUsedCode st c).userSessions = st.userSessions := rfl

@[simp] lemma delUsedCode_usernameSessions (st : ServerState) (c : String) :
    (delUsedCode st c).usernameSessions = st.usernameSessions := rfl

lemma leave_usernameSessions (st : ServerState) (sid x : String)
    (h : st.usernameSessions.contains x = false)
    (hx : ∀ (rc : String) (room : Room) (user : ChatUser) (rest : List ChatUser),
      (getSock st sid).roomCode = some rc → findRoom st rc = some room →
      spliceFirst (fun u => u.socketId == sid) room.users = some (user, rest) →
      x ≠ user.username ++ "-" ++ rc) :
    (leaveRoomH st sid).st.usernameSessions.contains x = false := by
  unfold leaveRoomH
  split
  · exact h
  rename_i rc hrc
  split
  · exact h
  rename_i room hroom
  split
  · exact h
  rename_i pr hsplice
  have hne := hx rc room _ pr hrc hroom hsplice
  dsimp only
  split
  · simp only [delUsedCode_usernameSessions, delRoom_usernameSessions,
      setRoom_usernameSessions, setSock_usernameSessions]
    exact contains_addKey_of_ne _ _ _ hne h
  · simp only [setRoom_usernameSessions, setSock_usernameSessions]
    exact contains_addKey_of_ne _ _ _ hne h

/-- The participant record a joinRoom without a display name creates. -/
def mkAnonUser (sid : String) (nameRnd now : Nat) : ChatUser :=
  { socketId := sid
    username := jsOr none ("User" ++ decimalRepr nameRnd)
    joinedAt := now }

/-- The room record after a join appended `user`. -/
def joinedRoomOf (room : Room) (user : ChatUser) (now : Nat) : Room :=
  { room with
    users := room.users ++ [user]
    lastActivity := now
    expiresAt := now + ROOM_EXPIRY_TIME }

/-- C10: joinRoom without a display name tests the ledger key "anonymous-<code>", while
leaveRoom records the assigned auto-generated display name ("User<n>-<code>"); hence
after an anonymous participant joins room <code> and leaves, the key
"anonymous-<code>" is still absent from the name ledger, and a later anonymous joinRoom
of the code by a different connection identity (whose own identity key is not recorded)
is never answered with the rejoin-forbidden error. -/
theorem c10_anonymous_rejoin_not_blocked (st : ServerState) (sid code : String)
    (nameRnd now : Nat) (room : Room)
    (h4 : isFourDigitCode code = true)
    (hroom : findRoom st code = some room)
    (hfull : ¬ 2 ≤ room.users.length)
    (hany : (room.users.any fun u => u.socketId == sid) = false)
    (hid : st.userSessions.contains (sid ++ "-" ++ code) = false)
    (hanon : st.usernameSessions.contains ("anonymous" ++ "-" ++ code) = false) :
    (leaveRoomH (joinRoom st sid code none nameRnd now).st
      sid).st.usernameSessions.contains ("anonymous" ++ "-" ++ code) = false ∧
    (∀ (sid' : String) (nameRnd2 now2 : Nat),
      (leaveRoomH (joinRoom st sid code none nameRnd now).st
        sid).st.userSessions.contains (sid' ++ "-" ++ code) = false →
      (joinRoom (leaveRoomH (joinRoom st sid code none nameRnd now).st sid).st
        sid' code none nameRnd2 now2).out ≠ [(sid', Ev.errorEv rejoinMsg)]) := by
  have hses : (st.userSessions.contains (sid ++ "-" ++ code) ||
      st.usernameSessions.contains (jsOr none "anonymous" ++ "-" ++ code)) = false := by
    show (st.userSessions.contains (sid ++ "-" ++ code) ||
      st.usernameSessions.contains ("anonymous" ++ "-" ++ code)) = false
    rw [hid, hanon]
    rfl
  have hjoin := @joinRoom_eval_success st sid code none nameRnd now room h4 hroom hfull
    hany hses
  have hjoin2 : (joinRoom st sid code none nameRnd now).st =
      setSock (setRoom st code (joinedRoomOf room (mkAnonUser sid nameRnd now) now)) sid
        { roomCode := some code
          joined := (joinSockRoom (getSock (setRoom st code
            (joinedRoomOf room (mkAnonUser sid nameRnd now) now)) sid) code).joined } := by
    rw [hjoin]
    rfl
  have hrc1 : (getSock (joinRoom st sid code none nameRnd now).st sid).roomCode =
      some code := by
    rw [hjoin2, getSock_setSock]
  have hroom1 : findRoom (joinRoom st sid code none nameRnd now).st code =
      some (joinedRoomOf room (mkAnonUser sid nameRnd now) now) := by
    rw [hjoin2, findRoom_setSock, findRoom_setRoom]
  have hall : ∀ x ∈ room.users, (x.socketId == sid) = false := by
    intro x hx
    cases hb : (x.socketId == sid) with
    | false => rfl
    | true =>
      have hcontra : room.users.any (fun u => u.socketId == sid) = true := by
        rw [List.any_eq_true]
        exact ⟨x, hx, hb⟩
      rw [hany] at hcontra
      exact absurd hcontra (by simp)
  have hsplice0 : spliceFirst (fun u => u.socketId == sid)
      (joinedRoomOf room (mkAnonUser sid nameRnd now) now).users =
      some (mkAnonUser sid nameRnd now, room.users) := by
    show spliceFirst (fun u => u.socketId == sid)
      (room.users ++ [mkAnonUser sid nameRnd now]) =
      some (mkAnonUser sid nameRnd now, room.users)
    apply spliceFirst_append_last room.users _ hall
    show (sid == sid) = true
    simp
  have hkeep : (leaveRoomH (joinRoom st sid code none nameRnd now).st
      sid).st.usernameSessions.contains ("anonymous" ++ "-" ++ code) = false := by
    apply leave_usernameSessions
    · rw [hjoin2]
      simp only [setSock_usernameSessions, setRoom_usernameSessions]
      exact hanon
    · intro rc' room'' user' rest' hrc' hroom'' hsplice'
      rw [hrc1] at hrc'
      obtain rfl := Option.some.inj hrc'
      rw [hroom1] at hroom''
      obtain rfl := Option.some.inj hroom''
      rw [hsplice0] at hsplice'
      obtain ⟨rfl, -⟩ := Prod.mk.injEq .. ▸ Option.some.inj hsplice'
      show ("anonymous" ++ "-" ++ code : String) ≠
        ("User" ++ decimalRepr nameRnd) ++ "-" ++ code
      exact (userKey_ne_anonymousKey (decimalRepr nameRnd) code).symm
  refine ⟨hkeep, ?_⟩
  intro sid' nameRnd2 now2 hid'
  cases hroom2 : findRoom (leaveRoomH (joinRoom st sid code none nameRnd now).st sid).st
      code with
  | none =>
    rw [joinRoom_eval_notFound h4 hroom2]
    exact single_error_ne (by decide)
  | some room2 =>
    by_cases hfull2 : 2 ≤ room2.users.length
    · rw [joinRoom_eval_full h4 hroom2 hfull2]
      intro hcon
      simp at hcon
    · cases hany2 : (room2.users.any fun u => u.socketId == sid') with
      | true =>
        rw [joinRoom_eval_dup h4 hroom2 hfull2 hany2]
        exact single_error_ne (by decide)
      | false =>
        have hses2 : ((leaveRoomH (joinRoom st sid code none nameRnd now).st
            sid).st.userSessions.contains (sid' ++ "-" ++ code) ||
            (leaveRoomH (joinRoom st sid code none nameRnd now).st
              sid).st.usernameSessions.contains
              (jsOr none "anonymous" ++ "-" ++ code)) = false := by
          show ((leaveRoomH (joinRoom st sid code none nameRnd now).st
            sid).st.userSessions.contains (sid' ++ "-" ++ code) ||
            (leaveRoomH (joinRoom st sid code none nameRnd now).st
              sid).st.usernameSessions.contains
              ("anonymous" ++ "-" ++ code)) = false
          rw [hid', hkeep]
          rfl
        rw [joinRoom_eval_success h4 hroom2 hfull2 hany2 hses2]
        intro hcon
        simp at hcon

/-- The room used in the anonymous-rejoin witness. -/
def c10room : Room :=
  { users := [{ socketId := "x", username := "X", joinedAt := 0 }]
    messages := []
    createdAt := 0
    expiresAt := 600000
    lastActivity := 0
    inVoiceChat := false }

/-- Witness for C10: "b" joins room "0007" anonymously and leaves; the
"anonymous-0007" key stays absent and no later anonymous join can hit the
rejoin-forbidden error through the name check. -/
theorem c10_anonymous_rejoin_not_blocked_witness :
    (leaveRoomH (joinRoom (runActions initState [Act.createA "x" (some "X") [7] 0 0])
      "b" "0007" none 42 1).st "b").st.usernameSessions.contains
      ("anonymous" ++ "-" ++ "0007") = false ∧
    (∀ (sid' : String) (nameRnd2 now2 : Nat),
      (leaveRoomH (joinRoom (runActions initState [Act.createA "x" (some "X") [7] 0 0])
        "b" "0007" none 42 1).st "b").st.userSessions.contains
        (sid' ++ "-" ++ "0007") = false →
      (joinRoom (leaveRoomH (joinRoom (runActions initState
        [Act.createA "x" (some "X") [7] 0 0]) "b" "0007" none 42 1).st "b").st
        sid' "0007" none nameRnd2 now2).out ≠ [(sid', Ev.errorEv rejoinMsg)]) :=
  c10_anonymous_rejoin_not_blocked (runActions initState
      [Act.createA "x" (some "X") [7] 0 0]) "b" "0007" 42 1 c10room
    (by decide) rfl (by decide) (by decide) (by decide) (by decide)
